import Mathlib

/-!
Verification of the leapp model field type system
(`src/leapp/models/fields/__init__.py`) and of the actor
definition/discovery/execution subsystem
(`src/leapp/repository/actor_definition.py`).

The Python code is shallowly embedded: Python values that can flow through
the field API are modelled by the inductive `PyVal`; `datetime.datetime`
objects by `PyDateTime`; exceptions by `PyErr` (`Except PyErr` for fallible
code).  Field classes become the inductive `Field`, and each Python method
becomes a Lean function of the same name (leading underscores dropped).
Mutable process state (environment variables, working directory,
`sys.modules`, the `leapp.libraries.actor` namespace) is passed explicitly
as `ProcState`.
-/

set_option maxHeartbeats 1000000

/-- A Python `datetime.datetime` value.  `tzoffset` is the UTC offset in
minutes reported by `utcoffset()`: `Option.none` models a naive datetime
(`utcoffset()` is `None`), `some k` an aware one. -/
structure PyDateTime where
  year : Nat
  month : Nat
  day : Nat
  hour : Nat
  minute : Nat
  second : Nat
  microsecond : Nat
  tzoffset : Option Int
deriving DecidableEq, Repr

/-- Python values that can flow through the field API.  `missing` is the
module level `missing` sentinel function of `leapp.models.fields`; floats
are idealized as rationals (no float arithmetic is ever performed on them,
they are pure pass-through data for the `Float`/`Number` fields).  `dict`
is a string-keyed Python `dict` (the builtin representation of a nested
model); `obj` is an instance of a schema-container class, carrying the
class name and the attribute mapping — class objects are represented by
their names, so `isinstance(value, model_type)` reads as the instance
bearing the referenced container's name. -/
inductive PyVal where
  | none
  | missing
  | bool (b : Bool)
  | int (n : Int)
  | float (q : Rat)
  | str (s : String)
  | dtime (d : PyDateTime)
  | list (xs : List PyVal)
  | dict (entries : List (String × PyVal))
  | obj (tname : String) (attrs : List (String × PyVal))

mutual

/-- Boolean equality on `PyVal` (needed because automatic `DecidableEq`
derivation does not handle the nested `List PyVal` occurrence). -/
def PyVal.beq : PyVal → PyVal → Bool
  | .none, .none => true
  | .missing, .missing => true
  | .bool a, .bool b => a == b
  | .int a, .int b => a == b
  | .float a, .float b => a == b
  | .str a, .str b => a == b
  | .dtime a, .dtime b => a == b
  | .list a, .list b => PyVal.beqs a b
  | .dict a, .dict b => PyVal.beqkvs a b
  | .obj t a, .obj t' b => t == t' && PyVal.beqkvs a b
  | _, _ => false

/-- Elementwise `PyVal.beq` on lists. -/
def PyVal.beqs : List PyVal → List PyVal → Bool
  | [], [] => true
  | x :: xs, y :: ys => PyVal.beq x y && PyVal.beqs xs ys
  | _, _ => false

/-- Entrywise `PyVal.beq` on key-value lists. -/
def PyVal.beqkvs : List (String × PyVal) → List (String × PyVal) → Bool
  | [], [] => true
  | (k, x) :: xs, (k', y) :: ys => k == k' && PyVal.beq x y && PyVal.beqkvs xs ys
  | _, _ => false

end

mutual

theorem PyVal.beq_iff : ∀ a b : PyVal, PyVal.beq a b = true ↔ a = b
  | .none, b => by cases b <;> simp [PyVal.beq]
  | .missing, b => by cases b <;> simp [PyVal.beq]
  | .bool a, b => by cases b <;> simp [PyVal.beq]
  | .int a, b => by cases b <;> simp [PyVal.beq]
  | .float a, b => by cases b <;> simp [PyVal.beq]
  | .str a, b => by cases b <;> simp [PyVal.beq]
  | .dtime a, b => by cases b <;> simp [PyVal.beq]
  | .list a, .none => by simp [PyVal.beq]
  | .list a, .missing => by simp [PyVal.beq]
  | .list a, .bool _ => by simp [PyVal.beq]
  | .list a, .int _ => by simp [PyVal.beq]
  | .list a, .float _ => by simp [PyVal.beq]
  | .list a, .str _ => by simp [PyVal.beq]
  | .list a, .dtime _ => by simp [PyVal.beq]
  | .list a, .list b => by simp [PyVal.beq, PyVal.beqs_iff a b]
  | .list a, .dict _ => by simp [PyVal.beq]
  | .list a, .obj _ _ => by simp [PyVal.beq]
  | .dict a, .none => by simp [PyVal.beq]
  | .dict a, .missing => by simp [PyVal.beq]
  | .dict a, .bool _ => by simp [PyVal.beq]
  | .dict a, .int _ => by simp [PyVal.beq]
  | .dict a, .float _ => by simp [PyVal.beq]
  | .dict a, .str _ => by simp [PyVal.beq]
  | .dict a, .dtime _ => by simp [PyVal.beq]
  | .dict a, .list _ => by simp [PyVal.beq]
  | .dict a, .dict b => by simp [PyVal.beq, PyVal.beqkvs_iff a b]
  | .dict a, .obj _ _ => by simp [PyVal.beq]
  | .obj t a, .none => by simp [PyVal.beq]
  | .obj t a, .missing => by simp [PyVal.beq]
  | .obj t a, .bool _ => by simp [PyVal.beq]
  | .obj t a, .int _ => by simp [PyVal.beq]
  | .obj t a, .float _ => by simp [PyVal.beq]
  | .obj t a, .str _ => by simp [PyVal.beq]
  | .obj t a, .dtime _ => by simp [PyVal.beq]
  | .obj t a, .list _ => by simp [PyVal.beq]
  | .obj t a, .dict _ => by simp [PyVal.beq]
  | .obj t a, .obj t' b => by
      simp [PyVal.beq, PyVal.beqkvs_iff a b]

theorem PyVal.beqs_iff : ∀ a b : List PyVal, PyVal.beqs a b = true ↔ a = b
  | [], [] => by simp [PyVal.beqs]
  | [], _ :: _ => by simp [PyVal.beqs]
  | _ :: _, [] => by simp [PyVal.beqs]
  | x :: xs, y :: ys => by
      simp [PyVal.beqs, PyVal.beq_iff x y, PyVal.beqs_iff xs ys]

theorem PyVal.beqkvs_iff :
    ∀ a b : List (String × PyVal), PyVal.beqkvs a b = true ↔ a = b
  | [], [] => by simp [PyVal.beqkvs]
  | [], _ :: _ => by simp [PyVal.beqkvs]
  | _ :: _, [] => by simp [PyVal.beqkvs]
  | (k, x) :: xs, (k', y) :: ys => by
      simp [PyVal.beqkvs, PyVal.beq_iff x y, PyVal.beqkvs_iff xs ys, Prod.ext_iff,
        and_assoc]

end

instance : BEq PyVal := ⟨PyVal.beq⟩

instance : DecidableEq PyVal :=
  fun a b => decidable_of_iff (PyVal.beq a b = true) (PyVal.beq_iff a b)

instance : LawfulBEq PyVal where
  eq_of_beq h := (PyVal.beq_iff _ _).mp h
  rfl := by intro a; exact (PyVal.beq_iff a a).mpr rfl

deriving instance DecidableEq for Except

/-- Python exceptions raised by the embedded code.  `violation` is
`ModelViolationError`, `misuse` is `ModelMisuseError`; `pyError` covers
interpreter-level errors (`AttributeError`, `TypeError`) that the source
can hit on pathological inputs. -/
inductive PyErr where
  | violation (msg : String)
  | misuse (msg : String)
  | pyError (msg : String)
deriving DecidableEq, Repr

/-- `type(value).__name__` for the values of `PyVal` (the `missing`
sentinel is a Python function). -/
def PyVal.typeName : PyVal → String
  | .none => "NoneType"
  | .missing => "function"
  | .bool _ => "bool"
  | .int _ => "int"
  | .float _ => "float"
  | .str _ => "str"
  | .dtime _ => "datetime"
  | .list _ => "list"
  | .dict _ => "dict"
  | .obj t _ => t

/-- `'{}'.format(type(value))` — the CPython 3 rendering of a class
object; classes being names here, every class is rendered by its bare
name. -/
def PyVal.typeRepr (v : PyVal) : String :=
  "<class '" ++ v.typeName ++ "'>"

/-- Python truthiness of a `PyVal` (`bool(value)`).  The `missing`
sentinel is a function object and hence truthy; an empty `dict` is falsy;
schema-container instances define no `__bool__`/`__len__` and are always
truthy. -/
def PyVal.truthy : PyVal → Bool
  | .none => false
  | .missing => true
  | .bool b => b
  | .int n => n != 0
  | .float q => q != 0
  | .str s => s != ""
  | .dtime _ => true
  | .list xs => !xs.isEmpty
  | .dict es => !es.isEmpty
  | .obj _ _ => true

/-- `str(value)` as used when formatting enum choices into messages
(container and instance values are rendered coarsely; the staged message
paths only ever format scalar choices). -/
def PyVal.pyStr : PyVal → String
  | .none => "None"
  | .missing => "missing"
  | .bool b => if b then "True" else "False"
  | .int n => toString n
  | .float q => toString q
  | .str s => s
  | .dtime _ => "datetime"
  | .list _ => "list"
  | .dict _ => "dict"
  | .obj t _ => t

/-- `utcoffset()` of the model value is falsy: either the datetime is
naive (`None`) or the offset is the zero timedelta. -/
def PyDateTime.utcFalsy (d : PyDateTime) : Bool :=
  match d.tzoffset with
  | Option.none => true
  | some k => k == 0

/-! ## Datetime rendering and parsing

Models of `datetime.isoformat()` and of `datetime.strptime` for the two
format strings used by `DateTime._convert_to_model`
(`%Y-%m-%dT%H:%M:%S{fractions}%Z` and `%Y-%m-%dT%H:%M:%S{fractions}`).
`strptime` is modelled as CPython implements it: the format is compiled to
a regex, matched against a prefix of the input with ordered-alternation
backtracking, a "unconverted data remains" check requires the match to
cover the whole string, and finally the `datetime` constructor validates
the ranges of the captured fields. -/

/-- Numeric value of a digit character. -/
def dv (c : Char) : Nat := c.toNat - 48

/-- Two zero-padded decimal digits (`%02d`), for inputs below 100. -/
def pad2c (n : Nat) : List Char := [Nat.digitChar (n / 10), Nat.digitChar (n % 10)]

/-- Four zero-padded decimal digits (`%04d`), for inputs below 10000. -/
def pad4c (n : Nat) : List Char :=
  [Nat.digitChar (n / 1000), Nat.digitChar (n / 100 % 10),
   Nat.digitChar (n / 10 % 10), Nat.digitChar (n % 10)]

/-- Six zero-padded decimal digits (`%06d`), for inputs below 1000000. -/
def pad6c (n : Nat) : List Char :=
  [Nat.digitChar (n / 100000), Nat.digitChar (n / 10000 % 10),
   Nat.digitChar (n / 1000 % 10), Nat.digitChar (n / 100 % 10),
   Nat.digitChar (n / 10 % 10), Nat.digitChar (n % 10)]

/-- Gregorian leap year test, as in CPython's `datetime` module. -/
def isLeapYear (y : Nat) : Bool := y % 4 == 0 && (y % 100 != 0 || y % 400 == 0)

/-- Number of days in a month, as validated by the `datetime` constructor. -/
def daysInMonth (y m : Nat) : Nat :=
  if m == 2 then (if isLeapYear y then 29 else 28)
  else if m == 4 || m == 6 || m == 9 || m == 11 then 30
  else 31

/-- The invariant every Python `datetime.datetime` object satisfies by
construction (`MINYEAR = 1`, `MAXYEAR = 9999`). -/
def PyDateTime.valid (d : PyDateTime) : Bool :=
  1 ≤ d.year && d.year ≤ 9999 && 1 ≤ d.month && d.month ≤ 12 &&
  1 ≤ d.day && d.day ≤ daysInMonth d.year d.month &&
  d.hour ≤ 23 && d.minute ≤ 59 && d.second ≤ 59 && d.microsecond ≤ 999999

/-- The `+HH:MM`/`-HH:MM` suffix `isoformat()` appends for an aware
datetime (offset in minutes); empty for a naive one. -/
def offsetChars : Option Int → List Char
  | Option.none => []
  | some k =>
      (if k < 0 then '-' else '+') :: (pad2c (k.natAbs / 60) ++ ':' :: pad2c (k.natAbs % 60))

/-- `datetime.isoformat()` as a character list: date and time zero-padded,
microseconds printed as `.%06d` only when non-zero, offset suffix only
when aware. -/
def PyDateTime.isoChars (d : PyDateTime) : List Char :=
  pad4c d.year ++ '-' :: pad2c d.month ++ '-' :: pad2c d.day ++
  'T' :: pad2c d.hour ++ ':' :: pad2c d.minute ++ ':' :: pad2c d.second ++
  (if d.microsecond != 0 then '.' :: pad6c d.microsecond else []) ++
  offsetChars d.tzoffset

/-- `datetime.isoformat()`. -/
def PyDateTime.isoformat (d : PyDateTime) : String := String.mk d.isoChars

/-- `value.rstrip('Z')`: remove every trailing `'Z'`. -/
def rstripZ (cs : List Char) : List Char :=
  (cs.reverse.dropWhile (fun c => c = 'Z')).reverse

/-- `%Y`: exactly four digits (regex `\d\d\d\d`). -/
def parseYear {β : Type} (cs : List Char) (k : Nat → List Char → Option β) : Option β :=
  match cs with
  | a :: b :: c :: e :: rest =>
      if a.isDigit && b.isDigit && c.isDigit && e.isDigit then
        k (1000 * dv a + 100 * dv b + 10 * dv c + dv e) rest
      else Option.none
  | _ => Option.none

/-- A literal format character. -/
def parseLit {β : Type} (ch : Char) (cs : List Char) (k : List Char → Option β) : Option β :=
  match cs with
  | c :: rest => if c = ch then k rest else Option.none
  | [] => Option.none

/-- A one-or-two digit numeric directive (`%m`, `%d`, `%H`, `%M`, `%S`).
The compiled regexes list the two-digit alternatives first, so the
two-digit reading is tried first and the one-digit reading is the
backtracking fallback; `ok2`/`ok1` encode which 2-digit/1-digit values the
regex alternatives accept. -/
def parseNum2 {β : Type} (ok2 ok1 : Nat → Bool) (cs : List Char)
    (k : Nat → List Char → Option β) : Option β :=
  match cs with
  | c1 :: c2 :: rest =>
      if c1.isDigit then
        if c2.isDigit && ok2 (10 * dv c1 + dv c2) then
          match k (10 * dv c1 + dv c2) rest with
          | some r => some r
          | Option.none => if ok1 (dv c1) then k (dv c1) (c2 :: rest) else Option.none
        else if ok1 (dv c1) then k (dv c1) (c2 :: rest) else Option.none
      else Option.none
  | [c1] => if c1.isDigit && ok1 (dv c1) then k (dv c1) [] else Option.none
  | [] => Option.none

/-- Value of a captured `%f` digit group: right-padded with zeros to six
digits (`.5` means 500000 microseconds). -/
def fracVal (ds : List Char) : Nat :=
  (ds.foldl (fun a c => 10 * a + dv c) 0) * 10 ^ (6 - ds.length)

/-- `%f`: one to six digits (regex `[0-9]{1,6}`), greedy with
backtracking: the longest available reading is tried first. -/
def parseFrac {β : Type} (cs : List Char) (k : Nat → List Char → Option β) : Nat → Option β
  | 0 => Option.none
  | i + 1 =>
      if (cs.take (i + 1)).length == i + 1 && (cs.take (i + 1)).all Char.isDigit then
        match k (fracVal (cs.take (i + 1))) (cs.drop (i + 1)) with
        | some r => some r
        | Option.none => parseFrac cs k i
      else parseFrac cs k i

/-- `%Z`: one of the always-recognized timezone names `UTC`/`GMT`,
case-insensitively (the regex is compiled with `re.IGNORECASE`;
locale-specific names from `time.tzname` are environment-dependent and
omitted).  Matching `%Z` does not make the result aware — only `%z`
would set `tzinfo`. -/
def parseTZ {β : Type} (cs : List Char) (k : List Char → Option β) : Option β :=
  match cs with
  | a :: b :: c :: rest =>
      if String.mk [a.toLower, b.toLower, c.toLower] = "utc" ||
         String.mk [a.toLower, b.toLower, c.toLower] = "gmt" then k rest
      else Option.none
  | _ => Option.none

/-- The fields captured by one regex match of the format. -/
structure DTParts where
  year : Nat
  month : Nat
  day : Nat
  hour : Nat
  minute : Nat
  second : Nat
  frac : Nat
deriving DecidableEq

/-- Tail of the format after `%S`/`%f`: the optional `%Z` directive.
On success returns the captured fields and the unconsumed suffix. -/
def matchTail (withTZ : Bool) (p : DTParts) (cs : List Char) : Option (DTParts × List Char) :=
  if withTZ then parseTZ cs (fun r => some (p, r)) else some (p, cs)

/-- Optional `.%f` part of the format, then the tail. -/
def matchFracTail (withFrac withTZ : Bool) (y mo d h mi s : Nat) (cs : List Char) :
    Option (DTParts × List Char) :=
  if withFrac then
    parseLit '.' cs fun r1 =>
      parseFrac r1 (fun f r2 => matchTail withTZ ⟨y, mo, d, h, mi, s, f⟩ r2) 6
  else matchTail withTZ ⟨y, mo, d, h, mi, s, 0⟩ cs

/-- One regex match attempt of `%Y-%m-%dT%H:%M:%S[.%f][%Z]` against a
prefix of `cs` (ranges of the numeric directives as in CPython's
`_strptime` regexes, `%S` admitting leap seconds 60 and 61). -/
def matchFormat (withFrac withTZ : Bool) (cs : List Char) : Option (DTParts × List Char) :=
  parseYear cs fun y r1 =>
  parseLit '-' r1 fun r2 =>
  parseNum2 (fun v => 1 ≤ v && v ≤ 12) (fun v => 1 ≤ v) r2 fun mo r3 =>
  parseLit '-' r3 fun r4 =>
  parseNum2 (fun v => 1 ≤ v && v ≤ 31) (fun v => 1 ≤ v) r4 fun d r5 =>
  parseLit 'T' r5 fun r6 =>
  parseNum2 (fun v => v ≤ 23) (fun _ => true) r6 fun h r7 =>
  parseLit ':' r7 fun r8 =>
  parseNum2 (fun v => v ≤ 59) (fun _ => true) r8 fun mi r9 =>
  parseLit ':' r9 fun r10 =>
  parseNum2 (fun v => v ≤ 61) (fun _ => true) r10 fun s r11 =>
  matchFracTail withFrac withTZ y mo d h mi s r11

/-- `datetime.strptime` for the two formats used by the `DateTime` field:
regex prefix match, "unconverted data remains" check, then the range
checks the `datetime` constructor performs.  The result is naive. -/
def strptimeDT (withFrac withTZ : Bool) (cs : List Char) : Option PyDateTime :=
  match matchFormat withFrac withTZ cs with
  | some (p, rest) =>
      if rest.isEmpty then
        if 1 ≤ p.year && 1 ≤ p.month && p.month ≤ 12 &&
           1 ≤ p.day && p.day ≤ daysInMonth p.year p.month &&
           p.hour ≤ 23 && p.minute ≤ 59 && p.second ≤ 59 then
          some ⟨p.year, p.month, p.day, p.hour, p.minute, p.second, p.frac, Option.none⟩
        else Option.none
      else Option.none
  | Option.none => Option.none

/-! ## The field classes

`Field` is the class hierarchy of `leapp.models.fields` as one inductive:
every concrete field kind carries the constructor arguments of the common
base (`required`, `allow_null`, `default`) in a `FieldOpts`, enum kinds
additionally carry `choices`, and `listF` carries the element field and
the (post-`__init__`) count bounds. -/

namespace Leapp

/-- The keyword arguments of `Field.__init__` (and their defaults). -/
structure FieldOpts where
  required : Bool
  allow_null : Bool
  default : PyVal
deriving DecidableEq

/-- The Python defaults: `default=missing, required=False, allow_null=False`. -/
def FieldOpts.dflt : FieldOpts := ⟨false, false, PyVal.missing⟩

/-- A Python `dict` (or object attribute set) with `PyVal` values. -/
def PyDict : Type := List (String × PyVal)

/-- `d.get(k)` / `getattr(d, k, None)`-style lookup. -/
def pyGet (d : PyDict) (k : String) : Option PyVal :=
  match d with
  | [] => Option.none
  | (k0, v0) :: rest => if k0 = k then some v0 else pyGet rest k

/-- `d[k] = v`: replace the existing binding or append a new one. -/
def pySet (d : PyDict) (k : String) (v : PyVal) : PyDict :=
  match d with
  | [] => [(k, v)]
  | (k0, v0) :: rest => if k0 = k then (k0, v) :: rest else (k0, v0) :: pySet rest k v

/-- One concrete field instance.  `listF` stores the bounds as
`List.__init__` leaves them: `minimum` already collapsed by
`minimum or 0`, `maximum` kept as given (see `Field.listInit`).
`modelF` is the model-reference kind (`fields.Model`): it stores the
referenced schema-container class as its name `tname` together with that
container's ordered field declarations `fields` (the spec's "ordered
mapping of field-name → Field declarations"; the container class itself
lives outside the staged sources). -/
inductive Field where
  | boolean (o : FieldOpts)
  | floatF (o : FieldOpts)
  | integer (o : FieldOpts)
  | number (o : FieldOpts)
  | stringF (o : FieldOpts)
  | dateTime (o : FieldOpts)
  | stringEnum (choices : List PyVal) (o : FieldOpts)
  | integerEnum (choices : List PyVal) (o : FieldOpts)
  | floatEnum (choices : List PyVal) (o : FieldOpts)
  | numberEnum (choices : List PyVal) (o : FieldOpts)
  | listF (elem : Field) (minimum : Int) (maximum : Option Int) (o : FieldOpts)
  | modelF (tname : String) (fields : List (String × Field)) (o : FieldOpts)

/-- The common `Field` options of a field instance. -/
def Field.opts : Field → FieldOpts
  | .boolean o => o
  | .floatF o => o
  | .integer o => o
  | .number o => o
  | .stringF o => o
  | .dateTime o => o
  | .stringEnum _ o => o
  | .integerEnum _ o => o
  | .floatEnum _ o => o
  | .numberEnum _ o => o
  | .listF _ _ _ o => o
  | .modelF _ _ o => o

/-- Whether the field is the model-reference kind — the one kind whose
`_validate_builtin_value` override reaches the base checks through
`super()._validate_model_value` instead of the builtin-direction base
check. -/
def Field.isModelRef : Field → Bool
  | .modelF _ _ _ => true
  | _ => false

/-- `List.__init__`: stores the element field and applies
`self._minimum = minimum or 0` (Python truthiness: both `None` and `0`
collapse to `0`); `self._maximum = maximum` is stored untransformed. -/
def Field.listInit (elem : Field) (minimum maximum : Option Int) (o : FieldOpts) : Field :=
  .listF elem (match minimum with
    | Option.none => 0
    | some m => if m = 0 then 0 else m) maximum o

/-- `isinstance(value, bool)`. -/
def isBoolV : PyVal → Bool
  | .bool _ => true
  | _ => false

/-- `isinstance(value, six.integer_types)`; a Python `bool` is an `int`. -/
def isIntV : PyVal → Bool
  | .int _ => true
  | .bool _ => true
  | _ => false

/-- `isinstance(value, float)`. -/
def isFloatV : PyVal → Bool
  | .float _ => true
  | _ => false

/-- `isinstance(value, six.integer_types + (float,))`. -/
def isNumberV (v : PyVal) : Bool := isIntV v || isFloatV v

/-- `isinstance(value, six.string_types + (six.binary_type,))`. -/
def isStrV : PyVal → Bool
  | .str _ => true
  | _ => false

/-- `isinstance(value, datetime.datetime)`. -/
def isDatetimeV : PyVal → Bool
  | .dtime _ => true
  | _ => false

/-- `isinstance(value, (list, tuple))`. -/
def isListV : PyVal → Bool
  | .list _ => true
  | _ => false

/-- `isinstance(value, dict)`. -/
def isDictV : PyVal → Bool
  | .dict _ => true
  | _ => false

/-- `isinstance(value, self._model_type)` for a model-reference field:
classes are names here, so the check reads as the instance bearing the
referenced container's name (container subclassing lives outside the
staged sources). -/
def isInstanceOf (tname : String) : PyVal → Bool
  | .obj t _ => t == tname
  | _ => false

/-- Message of `Field._validate_model_value` for a disallowed `None`. -/
def nullModelMsg (n : String) : String :=
  "The " ++ n ++ " attribute is None, but this is not allowed"

/-- Message of `Field._validate_model_value` for a required missing value. -/
def requiredMsg (n : String) : String :=
  "The " ++ n ++ " attribute is not set, but it is required"

/-- Message of `Field._validate_builtin_value` for a disallowed `null`. -/
def nullBuiltinMsg (n : String) : String :=
  "The " ++ n ++ " field is null, but this is not allowed"

/-- Message of `BuiltinField._validate` for a type mismatch. -/
def typeMsg (n actual expected : String) : String :=
  "Fields " ++ n ++ " is of type: " ++ actual ++ " expected: " ++ expected

/-- Message of `EnumMixin._validate_choices`. -/
def enumMsg (n values : String) : String :=
  "The " ++ n ++ " field value must be one of '" ++ values ++ "'"

/-- Message of `List._validate_count`. -/
def countMsg (n : String) (minimum mx count : Int) : String :=
  "Element count error for field " ++ n ++ " expected between " ++ toString minimum ++
  " and " ++ toString mx ++ " elements got " ++ toString count

/-- Message of `List._validate_model_value`/`_validate_builtin_value` for
a non-list value. -/
def listTypeMsg (n t : String) : String :=
  "Expected list but got " ++ t ++ " for the " ++ n ++ " field"

/-- Message of `Model._validate_model_value` for a truthy non-instance
value (`trep` is the `'{}'.format(type(value))` rendering). -/
def modelInstanceMsg (n tname trep : String) : String :=
  "Expected an instance of " ++ tname ++ " for the " ++ n ++ " attribute but got " ++ trep

/-- Message of `Model._validate_builtin_value` for a truthy non-dict
value. -/
def modelDictMsg (n t : String) : String :=
  "Expected a value for the " ++ n ++ " field and got " ++ t

/-- `Field._validate_model_value`: the base-class checks (`None` while not
`allow_null`, then `missing` while `required`). -/
def Field.base_validate_model (o : FieldOpts) (value : PyVal) (name : String) :
    Except PyErr Unit :=
  if value == .none && !o.allow_null then .error (.violation (nullModelMsg name))
  else if value == .missing && o.required then .error (.violation (requiredMsg name))
  else .ok ()

/-- `Field._validate_builtin_value`: the base class checks only `None`
while not `allow_null` (there is no missing/required check here). -/
def Field.base_validate_builtin (o : FieldOpts) (value : PyVal) (name : String) :
    Except PyErr Unit :=
  if value == .none && !o.allow_null then .error (.violation (nullBuiltinMsg name))
  else .ok ()

/-- `BuiltinField._validate`: skip a missing value of a non-required
field, otherwise raise for a present value outside the expected types. -/
def BuiltinField.validate (required : Bool) (isInst : PyVal → Bool) (expectedNames : String)
    (value : PyVal) (name : String) : Except PyErr Unit :=
  if !required && value == .missing then .ok ()
  else if value != .none && !isInst value then
    .error (.violation (typeMsg name value.typeName expectedNames))
  else .ok ()

/-- `EnumMixin._validate_choices`: a present, non-null value must be one
of `choices`. -/
def EnumMixin.validate_choices (choices : List PyVal) (value : PyVal) (name : String) :
    Except PyErr Unit :=
  if value != .none && value != .missing && !(choices.contains value) then
    .error (.violation (enumMsg name (String.intercalate ", " (choices.map PyVal.pyStr))))
  else .ok ()

/-- `List._validate_count`: `minimum <= count <= (maximum or count)`,
with Python truthiness collapsing both an unset and a zero `maximum` to
`count`. -/
def ListField.validate_count (minimum : Int) (maximum : Option Int) (xs : List PyVal)
    (name : String) : Except PyErr Unit :=
  let count : Int := xs.length
  let mx : Int := match maximum with
    | Option.none => count
    | some m => if m = 0 then count else m
  if !(minimum ≤ count && count ≤ mx) then
    .error (.violation (countMsg name minimum mx count))
  else .ok ()


/-! ### Virtual validation dispatch

For each concrete class the overridden `_validate_model_value` /
`_validate_builtin_value` first calls `super()` — which bottoms out in the
`Field` base checks — and then runs its own kind-specific checks.  Each
dispatch is one structurally recursive function; the per-element loops of
`List` are the generic `eachValidate`/`eachConvert` helpers, decorating
the field name with the element index (`'{}[{}]'.format(name, idx)`). -/

/-- The per-element validation loop of `List`. -/
def eachValidate (valFn : PyVal → String → Except PyErr Unit) :
    List PyVal → String → Nat → Except PyErr Unit
  | [], _, _ => .ok ()
  | x :: xs, n, i => do
      valFn x (n ++ "[" ++ toString i ++ "]")
      eachValidate valFn xs n (i + 1)

/-- The per-element conversion loop of `List` (a `list(...)` over a
generator: the first raising element aborts the whole conversion). -/
def eachConvert (convFn : PyVal → String → Except PyErr PyVal) :
    List PyVal → String → Nat → Except PyErr (List PyVal)
  | [], _, _ => .ok []
  | x :: xs, n, i => do
      let y ← convFn x (n ++ "[" ++ toString i ++ "]")
      let ys ← eachConvert convFn xs n (i + 1)
      .ok (y :: ys)

/-- `_validate_model_value` of a field instance (virtual dispatch):
the `Field` base checks, then the kind-specific checks. -/
def Field.validate_model_value : Field → PyVal → String → Except PyErr Unit
  | .boolean o, v, n => do
      Field.base_validate_model o v n
      BuiltinField.validate o.required isBoolV "bool" v n
  | .floatF o, v, n => do
      Field.base_validate_model o v n
      BuiltinField.validate o.required isFloatV "float" v n
  | .integer o, v, n => do
      Field.base_validate_model o v n
      BuiltinField.validate o.required isIntV "int" v n
  | .number o, v, n => do
      Field.base_validate_model o v n
      BuiltinField.validate o.required isNumberV "int, float" v n
  | .stringF o, v, n => do
      Field.base_validate_model o v n
      BuiltinField.validate o.required isStrV "str, bytes" v n
  | .dateTime o, v, n => do
      Field.base_validate_model o v n
      BuiltinField.validate o.required isDatetimeV "datetime" v n
  | .stringEnum cs o, v, n => do
      Field.base_validate_model o v n
      BuiltinField.validate o.required isStrV "str, bytes" v n
      EnumMixin.validate_choices cs v n
  | .integerEnum cs o, v, n => do
      Field.base_validate_model o v n
      BuiltinField.validate o.required isIntV "int" v n
      EnumMixin.validate_choices cs v n
  | .floatEnum cs o, v, n => do
      Field.base_validate_model o v n
      BuiltinField.validate o.required isFloatV "float" v n
      EnumMixin.validate_choices cs v n
  | .numberEnum cs o, v, n => do
      Field.base_validate_model o v n
      BuiltinField.validate o.required isNumberV "int, float" v n
      EnumMixin.validate_choices cs v n
  | .listF elem mn mx o, v, n => do
      Field.base_validate_model o v n
      match v with
      | .list xs => do
          ListField.validate_count mn mx xs n
          eachValidate (fun x m => Field.validate_model_value elem x m) xs n 0
      | _ =>
          if v.truthy && v != .missing then .error (.violation (listTypeMsg n v.typeName))
          else .ok ()
  | .modelF t _ o, v, n => do
      Field.base_validate_model o v n
      if v.truthy && v != .missing && !isInstanceOf t v then
        .error (.violation (modelInstanceMsg n t v.typeRepr))
      else .ok ()

/-- `_validate_builtin_value` of a field instance (virtual dispatch).
Note the asymmetries with the model direction: the base class has no
missing/required check here (except for `Model`, whose override calls
`super()._validate_model_value` — the model-direction base checks, null
and required/missing messages included), `DateTime` expects a string, and
any present non-list raises for `List` (no truthiness escape). -/
def Field.validate_builtin_value : Field → PyVal → String → Except PyErr Unit
  | .boolean o, v, n => do
      Field.base_validate_builtin o v n
      BuiltinField.validate o.required isBoolV "bool" v n
  | .floatF o, v, n => do
      Field.base_validate_builtin o v n
      BuiltinField.validate o.required isFloatV "float" v n
  | .integer o, v, n => do
      Field.base_validate_builtin o v n
      BuiltinField.validate o.required isIntV "int" v n
  | .number o, v, n => do
      Field.base_validate_builtin o v n
      BuiltinField.validate o.required isNumberV "int, float" v n
  | .stringF o, v, n => do
      Field.base_validate_builtin o v n
      BuiltinField.validate o.required isStrV "str, bytes" v n
  | .dateTime o, v, n => do
      Field.base_validate_builtin o v n
      BuiltinField.validate o.required isStrV "str" v n
  | .stringEnum cs o, v, n => do
      Field.base_validate_builtin o v n
      BuiltinField.validate o.required isStrV "str, bytes" v n
      EnumMixin.validate_choices cs v n
  | .integerEnum cs o, v, n => do
      Field.base_validate_builtin o v n
      BuiltinField.validate o.required isIntV "int" v n
      EnumMixin.validate_choices cs v n
  | .floatEnum cs o, v, n => do
      Field.base_validate_builtin o v n
      BuiltinField.validate o.required isFloatV "float" v n
      EnumMixin.validate_choices cs v n
  | .numberEnum cs o, v, n => do
      Field.base_validate_builtin o v n
      BuiltinField.validate o.required isNumberV "int, float" v n
      EnumMixin.validate_choices cs v n
  | .listF elem mn mx o, v, n => do
      Field.base_validate_builtin o v n
      match v with
      | .list xs => do
          ListField.validate_count mn mx xs n
          eachValidate (fun x m => Field.validate_builtin_value elem x m) xs n 0
      | .none => .ok ()
      | _ => .error (.violation (listTypeMsg n v.typeName))
  | .modelF _ _ o, v, n => do
      Field.base_validate_model o v n
      if v.truthy && !isDictV v then
        .error (.violation (modelDictMsg n v.typeName))
      else .ok ()

/-- The kind-specific part of `_validate_model_value`: everything the
concrete class runs after the `Field` base checks
(see `Leapp.validate_model_eq_base_then_kind`). -/
def Field.kindValidateModel : Field → PyVal → String → Except PyErr Unit
  | .boolean o, v, n => BuiltinField.validate o.required isBoolV "bool" v n
  | .floatF o, v, n => BuiltinField.validate o.required isFloatV "float" v n
  | .integer o, v, n => BuiltinField.validate o.required isIntV "int" v n
  | .number o, v, n => BuiltinField.validate o.required isNumberV "int, float" v n
  | .stringF o, v, n => BuiltinField.validate o.required isStrV "str, bytes" v n
  | .dateTime o, v, n => BuiltinField.validate o.required isDatetimeV "datetime" v n
  | .stringEnum cs o, v, n => do
      BuiltinField.validate o.required isStrV "str, bytes" v n
      EnumMixin.validate_choices cs v n
  | .integerEnum cs o, v, n => do
      BuiltinField.validate o.required isIntV "int" v n
      EnumMixin.validate_choices cs v n
  | .floatEnum cs o, v, n => do
      BuiltinField.validate o.required isFloatV "float" v n
      EnumMixin.validate_choices cs v n
  | .numberEnum cs o, v, n => do
      BuiltinField.validate o.required isNumberV "int, float" v n
      EnumMixin.validate_choices cs v n
  | .listF elem mn mx _, v, n =>
      match v with
      | .list xs => do
          ListField.validate_count mn mx xs n
          eachValidate (fun x m => Field.validate_model_value elem x m) xs n 0
      | _ =>
          if v.truthy && v != .missing then .error (.violation (listTypeMsg n v.typeName))
          else .ok ()
  | .modelF t _ _, v, n =>
      if v.truthy && v != .missing && !isInstanceOf t v then
        .error (.violation (modelInstanceMsg n t v.typeRepr))
      else .ok ()

/-- The kind-specific part of `_validate_builtin_value`
(see `Leapp.validate_builtin_eq_base_then_kind`). -/
def Field.kindValidateBuiltin : Field → PyVal → String → Except PyErr Unit
  | .boolean o, v, n => BuiltinField.validate o.required isBoolV "bool" v n
  | .floatF o, v, n => BuiltinField.validate o.required isFloatV "float" v n
  | .integer o, v, n => BuiltinField.validate o.required isIntV "int" v n
  | .number o, v, n => BuiltinField.validate o.required isNumberV "int, float" v n
  | .stringF o, v, n => BuiltinField.validate o.required isStrV "str, bytes" v n
  | .dateTime o, v, n => BuiltinField.validate o.required isStrV "str" v n
  | .stringEnum cs o, v, n => do
      BuiltinField.validate o.required isStrV "str, bytes" v n
      EnumMixin.validate_choices cs v n
  | .integerEnum cs o, v, n => do
      BuiltinField.validate o.required isIntV "int" v n
      EnumMixin.validate_choices cs v n
  | .floatEnum cs o, v, n => do
      BuiltinField.validate o.required isFloatV "float" v n
      EnumMixin.validate_choices cs v n
  | .numberEnum cs o, v, n => do
      BuiltinField.validate o.required isNumberV "int, float" v n
      EnumMixin.validate_choices cs v n
  | .listF elem mn mx _, v, n =>
      match v with
      | .list xs => do
          ListField.validate_count mn mx xs n
          eachValidate (fun x m => Field.validate_builtin_value elem x m) xs n 0
      | .none => .ok ()
      | _ => .error (.violation (listTypeMsg n v.typeName))
  | .modelF _ _ _, v, n =>
      if v.truthy && !isDictV v then
        .error (.violation (modelDictMsg n v.typeName))
      else .ok ()

/-- The base check an `_validate_builtin_value` override reaches through
`super()`: the `Field` builtin check for every kind except the
model-reference kind, whose override calls `super()._validate_model_value`
instead (line 439 of the source). -/
def Field.base_builtin_dispatch : Field → PyVal → String → Except PyErr Unit
  | .modelF _ _ o, v, n => Field.base_validate_model o v n
  | f, v, n => Field.base_validate_builtin f.opts v n

/-- Every `_validate_model_value` override runs the `Field` base checks
first (through `super()`), then its kind-specific checks. -/
theorem validate_model_eq_base_then_kind (f : Field) (v : PyVal) (n : String) :
    Field.validate_model_value f v n =
      (do
        Field.base_validate_model f.opts v n
        Field.kindValidateModel f v n) := by
  cases f <;> rfl

/-- Every `_validate_builtin_value` override runs its `super()` base check
first — `Field._validate_builtin_value`, except for the model-reference
kind where the `super()` call goes to `Field._validate_model_value` —
then its kind-specific checks. -/
theorem validate_builtin_eq_base_then_kind (f : Field) (v : PyVal) (n : String) :
    Field.validate_builtin_value f v n =
      (do
        Field.base_builtin_dispatch f v n
        Field.kindValidateBuiltin f v n) := by
  cases f <;> rfl

/-! ### Conversions -/

/-- `DateTime._convert_to_model` on a string value (after validation):
strip every trailing `'Z'`, decide fractional parsing from the presence
of `'.'`, try the format with `%Z`, retry without it, raise a
`ModelViolationError` (mentioning the stripped value) if both fail. -/
def DateTime.parse_to_model (s : String) (n : String) : Except PyErr PyVal :=
  let cs := rstripZ s.data
  let withFrac := cs.contains '.'
  match strptimeDT withFrac true cs with
  | some d => .ok (.dtime d)
  | Option.none =>
      match strptimeDT withFrac false cs with
      | some d => .ok (.dtime d)
      | Option.none =>
          .error (.violation ("The " ++ n ++ " field contains an invalid datetime value: '"
            ++ String.mk cs ++ "'"))

/-- `_convert_to_model` of a field instance: validate the builtin value,
then convert.  `Field`/`BuiltinField`/enum kinds pass the value through;
`DateTime` parses the string; `List` converts per element.  A `missing`
value of a non-required `DateTime` field slips past validation and hits
`missing.rstrip`, an `AttributeError`.  `Model` returns
`model_type(init_method='to_model', **value)`; a falsy non-dict slips
past its dict check and `**value` is a `TypeError`.  The constructor body
of the schema container is modelled from the spec by `toModelFields`. -/
def Field.convert_to_model : Field → PyVal → String → Except PyErr PyVal
  | .dateTime o, v, n => do
      Field.validate_builtin_value (.dateTime o) v n
      match v with
      | .none => .ok .none
      | .str s => DateTime.parse_to_model s n
      | _ => .error (.pyError "AttributeError: object has no attribute rstrip")
  | .listF elem mn mx o, v, n => do
      Field.validate_builtin_value (.listF elem mn mx o) v n
      match v with
      | .none => .ok .none
      | .list xs => do
          let ys ← eachConvert (fun x m => Field.convert_to_model elem x m) xs n 0
          .ok (.list ys)
      | _ => .error (.pyError "TypeError: object is not iterable")
  | .modelF t fs o, v, n => do
      Field.validate_builtin_value (.modelF t fs o) v n
      match v with
      | .none => .ok .none
      | .dict entries => do
          let attrs ← toModelFields fs entries []
          .ok (.obj t attrs)
      | _ => .error (.pyError "TypeError: argument after ** must be a mapping")
  | f, v, n => do
      Field.validate_builtin_value f v n
      .ok v
where
  /-- Modelled from the spec: the schema container's builtin-input
  constructor path (`model_type(init_method='to_model', **value)`;
  `leapp.models.Model.__init__` is outside the staged sources) runs each
  declared field's `to_model` with the given mapping as the source,
  assigning one attribute per declared field onto the new instance —
  each step is exactly the body of `Leapp.Field.to_model`. -/
  toModelFields : List (String × Field) → List (String × PyVal) → List (String × PyVal) →
      Except PyErr (List (String × PyVal))
  | [], _, acc => .ok acc
  | (fn, g) :: rest, src, acc => do
      let acc' ←
        (let source_value := (pyGet src fn).getD g.opts.default
         if source_value == .missing && !g.opts.required then .ok (pySet acc fn source_value)
         else do
           let tv ← Field.convert_to_model g source_value fn
           .ok (pySet acc fn tv))
      toModelFields rest src acc'

/-- `_convert_from_model` of a field instance: validate the model value,
then convert.  `DateTime` renders `isoformat() + "Z"` when `utcoffset()`
is falsy and otherwise falls off the end of the function, returning
Python's implicit `None`.  `List` iterates the value: for a (falsy,
validation-passing) string that iteration runs over its characters, and
for other non-iterable present values it is a `TypeError`.  `Model`
returns `value.dump()`; a falsy non-instance slips past its isinstance
check and `.dump()` is an `AttributeError`.  The dump body of the schema
container is modelled from the spec by `dumpFields`; validation has
pinned a reachable instance's type to the referenced container, whose
declared fields drive the dump. -/
def Field.convert_from_model : Field → PyVal → String → Except PyErr PyVal
  | .dateTime o, v, n => do
      Field.validate_model_value (.dateTime o) v n
      if v == .none || v == .missing then .ok v
      else match v with
        | .dtime d => if d.utcFalsy then .ok (.str (d.isoformat ++ "Z")) else .ok .none
        | _ => .error (.pyError "AttributeError: no utcoffset")
  | .listF elem mn mx o, v, n => do
      Field.validate_model_value (.listF elem mn mx o) v n
      if v == .none || v == .missing then .ok v
      else match v with
        | .list xs => do
            let ys ← eachConvert (fun x m => Field.convert_from_model elem x m) xs n 0
            .ok (.list ys)
        | .str s => do
            let ys ← eachConvert (fun x m => Field.convert_from_model elem x m)
              (s.data.map (fun c => PyVal.str (String.mk [c]))) n 0
            .ok (.list ys)
        | _ => .error (.pyError "TypeError: object is not iterable")
  | .modelF t fs o, v, n => do
      Field.validate_model_value (.modelF t fs o) v n
      if v == .none || v == .missing then .ok v
      else match v with
        | .obj _ attrs => do
            let entries ← dumpFields fs attrs []
            .ok (.dict entries)
        | _ => .error (.pyError "AttributeError: object has no attribute dump")
  | f, v, n => do
      Field.validate_model_value f v n
      .ok v
where
  /-- Modelled from the spec: the schema container's full-dump operation
  (`value.dump()`; `leapp.models.Model.dump` is outside the staged
  sources) runs each declared field's `to_builtin` from the instance's
  attributes into a fresh mapping — each step is exactly the body of
  `Leapp.Field.to_builtin`. -/
  dumpFields : List (String × Field) → List (String × PyVal) → List (String × PyVal) →
      Except PyErr (List (String × PyVal))
  | [], _, acc => .ok acc
  | (fn, g) :: rest, attrs, acc => do
      let tv ← Field.convert_from_model g ((pyGet attrs fn).getD PyVal.none) fn
      let acc' ← if tv != PyVal.missing then
          Except.ok (pySet acc fn tv) else Except.ok acc
      dumpFields rest attrs acc'

/-! ### Dictionary / attribute level operations -/

/-- `Field.from_initialization`: read `source.get(name, default)`,
validate it as a model value, assign it onto the target. -/
def Field.from_initialization (f : Field) (source : PyDict) (n : String) (target : PyDict) :
    Except PyErr PyDict := do
  let source_value := (pyGet source n).getD f.opts.default
  Field.validate_model_value f source_value n
  .ok (pySet target n source_value)

/-- `Field.to_model`: read `source.get(name, default)`; skip conversion
for a missing value of a non-required field, otherwise convert from the
builtin representation; always assign the resulting attribute. -/
def Field.to_model (f : Field) (source : PyDict) (n : String) (target : PyDict) :
    Except PyErr PyDict :=
  let source_value := (pyGet source n).getD f.opts.default
  if source_value == .missing && !f.opts.required then .ok (pySet target n source_value)
  else do
    let tv ← Field.convert_to_model f source_value n
    .ok (pySet target n tv)

/-- `Field.to_builtin`: convert `getattr(source, name, None)` — an absent
attribute reads as `None` — and store the result under `name` unless it
is the `missing` sentinel. -/
def Field.to_builtin (f : Field) (source : PyDict) (n : String) (target : PyDict) :
    Except PyErr PyDict := do
  let tv ← Field.convert_from_model f ((pyGet source n).getD PyVal.none) n
  if tv != .missing then .ok (pySet target n tv) else .ok target


/-! ## Actor definition: discovery (`ActorDefinition.discover`)

`discover` is modelled as a pure function of the memoization cache
(`self._discovery`, `Option.none` when unset — a populated metadata
record is a non-empty dict and therefore always truthy) and of the
observable outcome of the discovery subprocess: its exit code and the
list `q.get()` would deliver on the single-slot queue.  The result
reports the metadata record, the updated cache, and whether a subprocess
was spawned at all. -/

/-- The record `get_actor_metadata` builds for one actor class (dialogs,
consumed/produced models and tags are opaque identifiers here). -/
structure DiscoveryRecord where
  name : String
  class_name : String
  description : String
  dialogs : List Nat
  consumes : List Nat
  produces : List Nat
  tags : List Nat
deriving DecidableEq

/-- What the parent can observe of the discovery subprocess: the exit
code of the joined process and the content of the result channel. -/
structure SubprocOutcome where
  exitcode : Int
  channel : List DiscoveryRecord
deriving DecidableEq

/-- The typed errors `discover` can raise:
`ActorInspectionFailedError` and `MultipleActorsError` (the latter is
constructed with the actor directory as its message). -/
inductive DiscoverErr where
  | inspectionFailed (msg : String)
  | multipleActors (directory : String)
deriving DecidableEq

/-- Result of a `discover()` call: the metadata record returned, the new
cache value, and whether a subprocess was spawned by this call. -/
structure DiscoverResult where
  record : DiscoveryRecord
  cache : Option DiscoveryRecord
  spawned : Bool
deriving DecidableEq

/-- `ActorDefinition.discover`: return the cached record if present;
otherwise spawn the inspection subprocess, check its exit code before
looking at the channel, fail on an empty result, fail on more than one
matching actor, and cache a unique result. -/
def ActorDefinition.discover (directory : String) (cache : Option DiscoveryRecord)
    (outcome : SubprocOutcome) : Except DiscoverErr DiscoverResult :=
  match cache with
  | some d => .ok ⟨d, some d, false⟩
  | Option.none =>
      if outcome.exitcode != 0 then
        .error (.inspectionFailed ("Inspection of actor in " ++ directory ++ " failed"))
      else
        match outcome.channel with
        | [] => .error (.inspectionFailed
            ("Inspection of actor in " ++ directory ++ " produced no results"))
        | [r] => .ok ⟨r, some r, true⟩
        | _ :: _ :: _ => .error (.multipleActors directory)

/-- The metadata accessor `ActorDefinition.name`
(`return self.discover()['name']`); all other accessors (`dialogs`,
`consumes`, `produces`, `tags`, `class_name`, `description`) read the
same cached record the same way. -/
def ActorDefinition.nameAttr (directory : String) (cache : Option DiscoveryRecord)
    (outcome : SubprocOutcome) : Except DiscoverErr (String × Option DiscoveryRecord × Bool) :=
  (ActorDefinition.discover directory cache outcome).map fun r => (r.record.name, r.cache, r.spawned)

/-! ## Actor definition: the injected execution context

`injected_context` mutates four pieces of process-wide state: the
environment variables, the current working directory, the
`leapp.libraries.actor` namespace and `sys.modules` (modules are opaque
`Nat` identifiers).  Entry computes the backups and performs the
mutations; exit (run in a `finally`, hence on both normal and raising
bodies) performs the reversions.  `library_loader` is not part of the
sources under verification, so its observable effect is abstracted into
two parameters: `toAdd`, the `(name, module)` list it returns, and
`nsAdds`, the symbols it injects into the shared namespace. -/

/-- First-binding association list lookup (`d.get(k)`). -/
def alGet {α : Type} : List (String × α) → String → Option α
  | [], _ => Option.none
  | (k0, v0) :: rest, k => if k0 = k then some v0 else alGet rest k

/-- `d[k] = v`: replace the first binding or append a new one. -/
def alSet {α : Type} : List (String × α) → String → α → List (String × α)
  | [], k, v => [(k, v)]
  | (k0, v0) :: rest, k, v =>
      if k0 = k then (k0, v) :: rest else (k0, v0) :: alSet rest k v

/-- `d.pop(k, None)`: drop the first binding of `k`, if any. -/
def alPop {α : Type} : List (String × α) → String → List (String × α)
  | [], _ => []
  | (k0, v0) :: rest, k => if k0 = k then rest else (k0, v0) :: alPop rest k

/-- The key set of an association list. -/
def alKeys {α : Type} (d : List (String × α)) : List String := d.map Prod.fst

/-- The process-wide mutable state `injected_context` touches. -/
structure ProcState where
  environ : List (String × String)
  cwd : String
  actorNs : List (String × Nat)
  sysModules : List (String × Nat)
deriving DecidableEq

/-- A Python-dict-shaped state: every component binds each key at most
once (always true of real `os.environ`, module `__dict__` and
`sys.modules`). -/
def ProcState.wf (s : ProcState) : Prop :=
  (alKeys s.environ).Nodup ∧ (alKeys s.actorNs).Nodup ∧ (alKeys s.sysModules).Nodup

instance (s : ProcState) : Decidable s.wf := by
  unfold ProcState.wf; infer_instance

/-- The on-disk description of an actor used by `injected_context`. -/
structure ActorDefinition where
  repo_dir : String
  directory : String
  tools : List String
  files : List String
  libraries : List String
deriving DecidableEq

/-- `os.path.join` on relative components. -/
def pathJoin (parts : List String) : String := String.intercalate "/" parts

/-- The backups `injected_context` takes on entry. -/
structure InjBackup where
  path_backup : String
  files_backup : Option String
  tools_backup : Option String
  before : List String
  backup : List (String × Nat)
  previous_path : String
deriving DecidableEq

/-- The `sys.modules` injection loop of `injected_context`: for each
`(name, mod)` pair, back up a previously registered module under the same
name, then register `mod`.  Returns the updated registry and the backup
dict. -/
def injectModules : List (String × Nat) → List (String × Nat) → List (String × Nat) →
    List (String × Nat) × List (String × Nat)
  | [], sm, bk => (sm, bk)
  | p :: rest, sm, bk =>
      injectModules rest (alSet sm p.1 p.2)
        (match alGet sm p.1 with
         | some m => alSet bk p.1 m
         | Option.none => bk)

/-- The namespace injection loop of `library_loader` (abstracted): add
each symbol to the shared `leapp.libraries.actor` namespace. -/
def injectSymbols : List (String × Nat) → List (String × Nat) → List (String × Nat)
  | [], ns => ns
  | p :: rest, ns => injectSymbols rest (alSet ns p.1 p.2)

/-- Entry half of `injected_context`: back up and extend `PATH`, set the
`LEAPP_FILES`/`LEAPP_TOOLS` markers when the actor declares files/tools,
snapshot the namespace keys (`dict.keys()` as the Python 2 list copy the
code relies on; under Python 3 view semantics the later difference would
be empty), load the libraries (injecting `nsAdds` into the shared
namespace), inject `toAdd` into `sys.modules` backing up overwritten
entries, and change into the actor directory. -/
def ActorDefinition.injected_context_enter (a : ActorDefinition)
    (toAdd nsAdds : List (String × Nat)) (s : ProcState) : ProcState × InjBackup :=
  let path_backup := (alGet s.environ "PATH").getD ""
  let e1 := alSet s.environ "PATH"
    (String.intercalate ":" (path_backup.splitOn ":" ++
      a.tools.map (fun p => pathJoin [a.repo_dir, a.directory, p])))
  let files_backup := alGet e1 "LEAPP_FILES"
  let e2 := match a.files with
    | [] => e1
    | f :: _ => alSet e1 "LEAPP_FILES" (pathJoin [a.repo_dir, a.directory, f])
  let tools_backup := alGet e2 "LEAPP_TOOLS"
  let e3 := match a.tools with
    | [] => e2
    | t :: _ => alSet e2 "LEAPP_TOOLS" (pathJoin [a.repo_dir, a.directory, t])
  let before := alKeys s.actorNs
  let ns1 := injectSymbols nsAdds s.actorNs
  let smbk := injectModules toAdd s.sysModules []
  let previous_path := s.cwd
  (⟨e3, pathJoin [a.repo_dir, a.directory], ns1, smbk.1⟩,
   ⟨path_backup, files_backup, tools_backup, before, smbk.2, previous_path⟩)

/-- The namespace cleanup loop: pop every symbol name added since the
entry snapshot. -/
def popSymbols : List String → List (String × Nat) → List (String × Nat)
  | [], ns => ns
  | k :: rest, ns => popSymbols rest (alPop ns k)

/-- The `sys.modules` restoration loop: for each injected name, restore
the backed-up module or pop the entry.  (Python's `sys.modules.pop(name)`
would raise `KeyError` if the wrapped body had removed the entry; the
claims below therefore assume the injected names are still registered.) -/
def restoreModules (backup : List (String × Nat)) :
    List (String × Nat) → List (String × Nat) → List (String × Nat)
  | [], sm => sm
  | p :: rest, sm =>
      restoreModules backup rest
        (match alGet backup p.1 with
         | some m => alSet sm p.1 m
         | Option.none => alPop sm p.1)

/-- Exit half of `injected_context` (the `finally` block): restore the
working directory, restore `PATH` to its backup, restore or unset the
`LEAPP_FILES`/`LEAPP_TOOLS` markers, drop every namespace symbol not in
the entry snapshot, and restore or drop every injected `sys.modules`
entry per its backup. -/
def ActorDefinition.injected_context_exit (bk : InjBackup) (toAdd : List (String × Nat))
    (s : ProcState) : ProcState :=
  let e1 := alSet s.environ "PATH" bk.path_backup
  let e2 := match bk.files_backup with
    | some v => alSet e1 "LEAPP_FILES" v
    | Option.none => alPop e1 "LEAPP_FILES"
  let e3 := match bk.tools_backup with
    | some v => alSet e2 "LEAPP_TOOLS" v
    | Option.none => alPop e2 "LEAPP_TOOLS"
  let added := ((alKeys s.actorNs).filter (fun k => !bk.before.contains k)).dedup
  let ns1 := popSymbols added s.actorNs
  let sm1 := restoreModules bk.backup toAdd s.sysModules
  ⟨e3, bk.previous_path, ns1, sm1⟩

/-- `with definition.injected_context(): body` — the body is an arbitrary
state transformer that either returns normally (`false`) or raises
(`true`); the exit half runs in both cases. -/
def ActorDefinition.injected_context_run (a : ActorDefinition)
    (toAdd nsAdds : List (String × Nat)) (body : ProcState → ProcState × Bool)
    (s : ProcState) : ProcState × Bool :=
  let s1bk := ActorDefinition.injected_context_enter a toAdd nsAdds s
  let s2r := body s1bk.1
  (ActorDefinition.injected_context_exit s1bk.2 toAdd s2r.1, s2r.2)


/-! ### Except bind reduction helpers -/

@[simp] theorem leappBindOk {e a b : Type} (x : a) (f : a → Except e b) :
    (Except.ok x >>= f) = f x := rfl

@[simp] theorem leappBindErr {e a b : Type} (err : e) (f : a → Except e b) :
    (Except.error err >>= f) = Except.error err := rfl

@[simp] theorem leappMapOk {e a b : Type} (x : a) (f : a → b) :
    Except.map f (Except.ok x : Except e a) = Except.ok (f x) := rfl

@[simp] theorem leappMapErr {e a b : Type} (err : e) (f : a → b) :
    Except.map f (Except.error err : Except e a) = Except.error err := rfl

/-! ## Claim theorems -/

/-- C4: `discover()` fails with an inspection-failure error naming the
actor directory when the subprocess exits non-zero — independently of the
channel content, so output of a crashed subprocess is never trusted;
fails with an inspection-failure error on an empty result; fails with a
multiple-actors error naming the directory when more than one matching
actor is reported; and caches a unique record so that every later call
and every metadata accessor returns it without spawning again. -/
theorem C4_discover_protocol :
    (∀ (dir : String) (e : Int) (ch ch' : List DiscoveryRecord), e ≠ 0 →
        ActorDefinition.discover dir Option.none ⟨e, ch⟩ =
          .error (.inspectionFailed ("Inspection of actor in " ++ dir ++ " failed")) ∧
        ActorDefinition.discover dir Option.none ⟨e, ch⟩ =
          ActorDefinition.discover dir Option.none ⟨e, ch'⟩) ∧
    (∀ dir : String, ActorDefinition.discover dir Option.none ⟨0, []⟩ =
        .error (.inspectionFailed ("Inspection of actor in " ++ dir ++ " produced no results"))) ∧
    (∀ (dir : String) (r1 r2 : DiscoveryRecord) (rest : List DiscoveryRecord),
        ActorDefinition.discover dir Option.none ⟨0, r1 :: r2 :: rest⟩ =
          .error (.multipleActors dir)) ∧
    (∀ (dir : String) (r : DiscoveryRecord),
        ActorDefinition.discover dir Option.none ⟨0, [r]⟩ = .ok ⟨r, some r, true⟩) ∧
    (∀ (dir : String) (r : DiscoveryRecord) (out : SubprocOutcome),
        ActorDefinition.discover dir (some r) out = .ok ⟨r, some r, false⟩) ∧
    (∀ (dir : String) (r : DiscoveryRecord) (out : SubprocOutcome),
        ActorDefinition.nameAttr dir (some r) out = .ok (r.name, some r, false)) := by
  refine ⟨?_, ?_, ?_, ?_, ?_, ?_⟩ <;>
    intros <;>
    simp_all [ActorDefinition.discover, ActorDefinition.nameAttr]

/-- Witness for C4 at a concrete crashed subprocess. -/
theorem C4_discover_protocol_witness :
    ActorDefinition.discover "actors/checktarget" Option.none ⟨1, []⟩ =
      .error (.inspectionFailed "Inspection of actor in actors/checktarget failed") :=
  (C4_discover_protocol.1 "actors/checktarget" 1 [] [] (by decide)).1

/-- C6: a present list passes the count check exactly when
`minimum ≤ count` and `count` does not exceed the maximum — the upper
bound applying only when `maximum` is set and non-zero (unbounded
otherwise); and `List(Integer(), minimum=1, maximum=3)` validating `[]`
raises the count violation "expected between 1 and 3 elements got 0". -/
theorem C6_list_count_bounds :
    (∀ (mn : Int) (mx : Option Int) (xs : List PyVal) (n : String),
        ListField.validate_count mn mx xs n = .ok () ↔
          (mn ≤ xs.length ∧ ∀ m : Int, mx = some m → m ≠ 0 → (xs.length : Int) ≤ m)) ∧
    Field.validate_model_value
        (Field.listInit (.integer FieldOpts.dflt) (some 1) (some 3) FieldOpts.dflt)
        (.list []) "n" =
      .error (.violation "Element count error for field n expected between 1 and 3 elements got 0") := by
  constructor
  · intro mn mx xs n
    cases mx with
    | none => simp [ListField.validate_count]
    | some m =>
        by_cases hm : m = 0 <;> simp [ListField.validate_count, hm]
  · decide

/-- Witness for C6 at a concrete in-bounds list. -/
theorem C6_list_count_bounds_witness :
    ListField.validate_count 1 (some 3) [PyVal.int 7] "n" = .ok () :=
  (C6_list_count_bounds.1 1 (some 3) [PyVal.int 7] "n").mpr
    ⟨by decide, by intro m hm hz; cases hm; decide⟩

/-- C10: a `List` field constructed with `maximum = 0` stores that zero,
but the truthiness collapse `maximum or count` makes the count check
behave exactly as if no upper bound were set: any list at least
`minimum` long passes. -/
theorem C10_list_maximum_zero_unbounded :
    ∀ (elem e2 : Field) (mn : Option Int) (o oS : FieldOpts) (mnS : Int) (mxS : Option Int),
      Field.listInit elem mn (some 0) o = .listF e2 mnS mxS oS →
      ∀ (xs : List PyVal) (n : String),
        ListField.validate_count mnS mxS xs n = ListField.validate_count mnS Option.none xs n ∧
        (mnS ≤ xs.length → ListField.validate_count mnS mxS xs n = .ok ()) := by
  intro elem e2 mn o oS mnS mxS h xs n
  have hmx : mxS = some 0 := by
    cases mn <;> simp [Field.listInit] at h <;> exact h.2.2.1.symm
  subst hmx
  constructor
  · simp [ListField.validate_count]
  · intro hle
    simp [ListField.validate_count]
    omega

/-- Witness for C10: `minimum=2, maximum=0` accepts a 5-element list. -/
theorem C10_list_maximum_zero_unbounded_witness :
    ListField.validate_count 2 (some 0) [.int 1, .int 2, .int 3, .int 4, .int 5] "n" = .ok () :=
  (C10_list_maximum_zero_unbounded (.integer FieldOpts.dflt) (.integer FieldOpts.dflt)
      (some 2) FieldOpts.dflt FieldOpts.dflt 2 (some 0) rfl
      [.int 1, .int 2, .int 3, .int 4, .int 5] "n").2 (by decide)

/-- C2: `DateTime._convert_from_model` on a datetime model value returns
`isoformat() + "Z"` whenever `utcoffset()` is falsy — the value carries
no UTC offset, i.e. it is naive or its offset is zero — and otherwise
falls off the end of the function, i.e. returns Python's implicit
`None`. -/
theorem C2_datetime_to_builtin :
    ∀ (o : FieldOpts) (d : PyDateTime) (n : String),
      (d.utcFalsy = true →
        Field.convert_from_model (.dateTime o) (.dtime d) n = .ok (.str (d.isoformat ++ "Z"))) ∧
      (d.utcFalsy = false →
        Field.convert_from_model (.dateTime o) (.dtime d) n = .ok PyVal.none) := by
  intro o d n
  constructor <;> intro h <;>
    simp [Field.convert_from_model, Field.validate_model_value, Field.base_validate_model,
      BuiltinField.validate, isDatetimeV, h]

/-- Witness for C2 at a concrete naive datetime. -/
theorem C2_datetime_to_builtin_witness :
    Field.convert_from_model (.dateTime FieldOpts.dflt)
        (.dtime ⟨2020, 1, 1, 0, 0, 0, 0, Option.none⟩) "n" = .ok (.str "2020-01-01T00:00:00Z") := by
  have h := (C2_datetime_to_builtin FieldOpts.dflt ⟨2020, 1, 1, 0, 0, 0, 0, Option.none⟩ "n").1
    (by decide)
  exact h.trans (by decide)

/-- C8 (amended): in the builtin direction every present non-list value
raises the list-type violation — the `missing` sentinel included — while
in the model direction only truthy non-missing non-lists raise; falsy
non-list values such as `""`, `0` and `False` pass model validation
silently. -/
theorem C8_list_nonlist_validation :
    ∀ (elem : Field) (mn : Int) (mx : Option Int) (o : FieldOpts) (v : PyVal) (n : String),
      isListV v = false →
      (v ≠ .none →
        Field.validate_builtin_value (.listF elem mn mx o) v n =
          .error (.violation (listTypeMsg n v.typeName))) ∧
      (v.truthy = true → v ≠ .missing →
        Field.validate_model_value (.listF elem mn mx o) v n =
          .error (.violation (listTypeMsg n v.typeName))) ∧
      (v.truthy = false → v ≠ .none →
        Field.validate_model_value (.listF elem mn mx o) v n = .ok ()) := by
  intro elem mn mx o v n hv
  refine ⟨?_, ?_, ?_⟩
  · intro hn
    cases v <;> simp_all [Field.validate_builtin_value, Field.base_validate_builtin, isListV,
      PyVal.typeName]
  · intro ht hm
    cases v <;> simp_all [Field.validate_model_value, Field.base_validate_model, isListV,
      PyVal.truthy, PyVal.typeName]
  · intro ht hn
    cases v <;> simp_all [Field.validate_model_value, Field.base_validate_model, isListV,
      PyVal.truthy]

/-- Counterexample to C8 as stated: the empty string is a present
non-list value, yet `List._validate_model_value` accepts it (the guard
`elif value and value is not missing` skips every falsy value). -/
theorem C8_counterexample :
    Field.validate_model_value (.listF (.integer FieldOpts.dflt) 0 Option.none FieldOpts.dflt)
      (.str "") "n" = .ok () := by decide

/-- Witness for C8 at the concrete falsy values of the claim. -/
theorem C8_list_nonlist_validation_witness :
    Field.validate_builtin_value (.listF (.integer FieldOpts.dflt) 0 Option.none FieldOpts.dflt)
        (.str "") "n" = .error (.violation (listTypeMsg "n" "str")) ∧
    Field.validate_model_value (.listF (.integer FieldOpts.dflt) 0 Option.none FieldOpts.dflt)
        (.int 0) "n" = .ok () :=
  ⟨(C8_list_nonlist_validation (.integer FieldOpts.dflt) 0 Option.none FieldOpts.dflt
      (.str "") "n" (by decide)).1 (by decide),
   (C8_list_nonlist_validation (.integer FieldOpts.dflt) 0 Option.none FieldOpts.dflt
      (.int 0) "n" (by decide)).2.2 (by decide) (by decide)⟩

/-- C3 (amended): in the model direction the checks of every field run in
the claimed order — null first, then required/missing, then the
kind-specific checks.  In the builtin direction every field except the
model-reference kind runs only the null check before its kind-specific
checks (no required/missing check); the model-reference field is the
exception — its builtin override delegates to the model-direction base
checks, so the null check (with the model-direction message) and the
required/missing check both run there before its dict check. -/
theorem C3_validation_order :
    ∀ (f : Field) (v : PyVal) (n : String),
      (v = .none → f.opts.allow_null = false →
        Field.validate_model_value f v n = .error (.violation (nullModelMsg n))) ∧
      (v = .missing → f.opts.required = true →
        Field.validate_model_value f v n = .error (.violation (requiredMsg n))) ∧
      (v ≠ .none → v ≠ .missing →
        Field.validate_model_value f v n = Field.kindValidateModel f v n) ∧
      (f.isModelRef = false →
        (v = .none → f.opts.allow_null = false →
          Field.validate_builtin_value f v n = .error (.violation (nullBuiltinMsg n))) ∧
        (v ≠ .none →
          Field.validate_builtin_value f v n = Field.kindValidateBuiltin f v n)) ∧
      (f.isModelRef = true →
        (v = .none → f.opts.allow_null = false →
          Field.validate_builtin_value f v n = .error (.violation (nullModelMsg n))) ∧
        (v = .missing → f.opts.required = true →
          Field.validate_builtin_value f v n = .error (.violation (requiredMsg n))) ∧
        (v ≠ .none → v ≠ .missing →
          Field.validate_builtin_value f v n = Field.kindValidateBuiltin f v n)) := by
  intro f v n
  have hdisp : f.isModelRef = false →
      Field.base_builtin_dispatch f v n = Field.base_validate_builtin f.opts v n := by
    cases f <;> simp [Field.isModelRef, Field.base_builtin_dispatch, Field.opts]
  have hdispM : f.isModelRef = true →
      Field.base_builtin_dispatch f v n = Field.base_validate_model f.opts v n := by
    cases f <;> simp [Field.isModelRef, Field.base_builtin_dispatch, Field.opts]
  refine ⟨?_, ?_, ?_, fun hmr => ⟨?_, ?_⟩, fun hmr => ⟨?_, ?_, ?_⟩⟩
  · rintro rfl hnull
    rw [validate_model_eq_base_then_kind]
    simp [Field.base_validate_model, hnull]
  · rintro rfl hreq
    rw [validate_model_eq_base_then_kind]
    simp [Field.base_validate_model, hreq]
  · intro hn hm
    rw [validate_model_eq_base_then_kind]
    simp [Field.base_validate_model, hn, hm]
  · rintro rfl hnull
    rw [validate_builtin_eq_base_then_kind, hdisp hmr]
    simp [Field.base_validate_builtin, hnull]
  · intro hn
    rw [validate_builtin_eq_base_then_kind, hdisp hmr]
    simp [Field.base_validate_builtin, hn]
  · rintro rfl hnull
    rw [validate_builtin_eq_base_then_kind, hdispM hmr]
    simp [Field.base_validate_model, hnull]
  · rintro rfl hreq
    rw [validate_builtin_eq_base_then_kind, hdispM hmr]
    simp [Field.base_validate_model, hreq]
  · intro hn hm
    rw [validate_builtin_eq_base_then_kind, hdispM hmr]
    simp [Field.base_validate_model, hn, hm]

/-- Counterexample to C3 as stated: in the builtin direction a required
but missing value of an ordinary field is not reported by a
required/missing check (as the claimed order would demand) — the
kind-specific type check fires instead, with a different message. -/
theorem C3_counterexample :
    Field.validate_builtin_value (.stringF ⟨true, false, .missing⟩) .missing "n" =
      .error (.violation (typeMsg "n" "function" "str, bytes")) ∧
    typeMsg "n" "function" "str, bytes" ≠ requiredMsg "n" := by decide

/-- Witness for C3 at concrete fields and values: the required/missing
check fires in the model direction of an ordinary field, and in the
builtin direction of a model-reference field (where the delegated base
model checks run). -/
theorem C3_validation_order_witness :
    Field.validate_model_value (.integer ⟨true, false, .missing⟩) .missing "n" =
      .error (.violation (requiredMsg "n")) ∧
    Field.validate_builtin_value (.modelF "M" [] ⟨true, false, .missing⟩) .missing "n" =
      .error (.violation (requiredMsg "n")) :=
  ⟨(C3_validation_order (.integer ⟨true, false, .missing⟩) .missing "n").2.1
      (by decide) (by decide),
   ((C3_validation_order (.modelF "M" [] ⟨true, false, .missing⟩) .missing "n").2.2.2.2
      (by decide)).2.1 (by decide) (by decide)⟩


/-- The `Field` base model check on `None` is decided by `allow_null` alone. -/
theorem base_model_none (o : FieldOpts) (n : String) :
    Field.base_validate_model o PyVal.none n =
      if o.allow_null then .ok () else .error (.violation (nullModelMsg n)) := by
  rcases o with ⟨req, an, df⟩
  cases an <;> simp [Field.base_validate_model]

/-- Every kind-specific model check accepts `None` (each of them skips
null values, which were already handled by the base check). -/
theorem kindValidateModel_none (f : Field) (n : String) :
    Field.kindValidateModel f PyVal.none n = .ok () := by
  cases f <;>
    simp [Field.kindValidateModel, BuiltinField.validate, EnumMixin.validate_choices,
      PyVal.truthy]

/-- `_convert_from_model` of every field kind maps `None` to `None` when
null is allowed and raises the base null violation otherwise. -/
theorem convert_from_model_none (f : Field) (n : String) :
    Field.convert_from_model f PyVal.none n =
      if f.opts.allow_null then .ok PyVal.none else .error (.violation (nullModelMsg n)) := by
  have hk := kindValidateModel_none f n
  have hv : Field.validate_model_value f PyVal.none n =
      if f.opts.allow_null then .ok () else .error (.violation (nullModelMsg n)) := by
    rw [validate_model_eq_base_then_kind, base_model_none]
    split <;> simp [hk]
  cases f <;> simp only [Field.convert_from_model] <;> rw [hv] <;> split <;> simp_all

/-- C9: `to_builtin` on a source object lacking the attribute treats the
value as null (`getattr(source, name, None)`), not as missing: it raises
the null model violation when `allow_null` is false, and writes `None`
into the target mapping (rather than skipping the key) when `allow_null`
is true. -/
theorem C9_to_builtin_missing_attribute :
    ∀ (f : Field) (source : PyDict) (n : String) (target : PyDict),
      pyGet source n = Option.none →
      (f.opts.allow_null = false →
        Field.to_builtin f source n target = .error (.violation (nullModelMsg n))) ∧
      (f.opts.allow_null = true →
        Field.to_builtin f source n target = .ok (pySet target n PyVal.none)) := by
  intro f source n target h
  have hc := convert_from_model_none f n
  constructor <;> intro ha <;>
    simp [Field.to_builtin, h, hc, ha]

/-- Witness for C9 on a nullable integer field, a non-nullable string
field and a nullable model-reference field. -/
theorem C9_to_builtin_missing_attribute_witness :
    Field.to_builtin (.integer ⟨false, true, .missing⟩) [] "n" [] =
      .ok [("n", PyVal.none)] ∧
    Field.to_builtin (.stringF FieldOpts.dflt) [] "n" [] =
      .error (.violation (nullModelMsg "n")) ∧
    Field.to_builtin (.modelF "M" [("x", .integer FieldOpts.dflt)] ⟨false, true, .missing⟩)
        [] "n" [] = .ok [("n", PyVal.none)] :=
  ⟨(C9_to_builtin_missing_attribute (.integer ⟨false, true, .missing⟩) [] "n" [] rfl).2 rfl,
   (C9_to_builtin_missing_attribute (.stringF FieldOpts.dflt) [] "n" [] rfl).1 rfl,
   (C9_to_builtin_missing_attribute
      (.modelF "M" [("x", .integer FieldOpts.dflt)] ⟨false, true, .missing⟩)
      [] "n" [] rfl).2 rfl⟩


/-- `rstrip('Z')` removes a trailing `'Z'`. -/
theorem rstripZ_append_Z (cs : List Char) : rstripZ (cs ++ ['Z']) = rstripZ cs := by
  simp [rstripZ]

/-- C7: `DateTime`'s builtin-to-model conversion strips a trailing `'Z'`,
parses fractional seconds exactly when the (stripped) string contains
`'.'`, first tries `%Y-%m-%dT%H:%M:%S[.%f]` with the `%Z` timezone
designator and retries without it, and raises a model violation when both
attempts fail; concretely, `"2020-01-01T10:00:00.500Z"` parses with
microsecond 500000 and `"not-a-date"` raises a violation. -/
theorem C7_datetime_to_model :
    (Field.convert_to_model (.dateTime FieldOpts.dflt) (.str "2020-01-01T10:00:00.500Z") "n" =
        .ok (.dtime ⟨2020, 1, 1, 10, 0, 0, 500000, Option.none⟩)) ∧
    (Field.convert_to_model (.dateTime FieldOpts.dflt) (.str "not-a-date") "n" =
        .error (.violation "The n field contains an invalid datetime value: 'not-a-date'")) ∧
    (∀ (s n : String), DateTime.parse_to_model (s ++ "Z") n = DateTime.parse_to_model s n) ∧
    (∀ (s n : String) (d : PyDateTime),
        strptimeDT ((rstripZ s.data).contains '.') true (rstripZ s.data) = some d →
        DateTime.parse_to_model s n = .ok (.dtime d)) ∧
    (∀ (s n : String) (d : PyDateTime),
        strptimeDT ((rstripZ s.data).contains '.') true (rstripZ s.data) = Option.none →
        strptimeDT ((rstripZ s.data).contains '.') false (rstripZ s.data) = some d →
        DateTime.parse_to_model s n = .ok (.dtime d)) ∧
    (∀ (s n : String),
        strptimeDT ((rstripZ s.data).contains '.') true (rstripZ s.data) = Option.none →
        strptimeDT ((rstripZ s.data).contains '.') false (rstripZ s.data) = Option.none →
        DateTime.parse_to_model s n =
          .error (.violation ("The " ++ n ++ " field contains an invalid datetime value: '" ++
            String.mk (rstripZ s.data) ++ "'"))) := by
  have hz : ("Z" : String).data = ['Z'] := rfl
  refine ⟨by decide, by decide, ?_, ?_, ?_, ?_⟩
  · intro s n
    simp [DateTime.parse_to_model, String.data_append, hz, rstripZ_append_Z]
  · intro s n d h
    simp only [DateTime.parse_to_model]
    rw [h]
  · intro s n d h1 h2
    simp only [DateTime.parse_to_model]
    rw [h1, h2]
  · intro s n h1 h2
    simp only [DateTime.parse_to_model]
    rw [h1, h2]

/-- Witness for C7: trailing-`Z` stripping at a concrete string. -/
theorem C7_datetime_to_model_witness :
    DateTime.parse_to_model ("2020-01-02T03:04:05" ++ "Z") "n" =
      DateTime.parse_to_model "2020-01-02T03:04:05" "n" :=
  C7_datetime_to_model.2.2.1 "2020-01-02T03:04:05" "n"


/-! ### Association-list lemmas for the injected-context claims -/

theorem alGet_alSet_self {α : Type} (l : List (String × α)) (k : String) (v : α) :
    alGet (alSet l k v) k = some v := by
  induction l with
  | nil => simp [alSet, alGet]
  | cons p rest ih =>
      obtain ⟨k0, v0⟩ := p
      by_cases h : k0 = k <;> simp [alSet, alGet, h, ih]

theorem alGet_alSet_ne {α : Type} (l : List (String × α)) (k k' : String) (v : α)
    (h : k' ≠ k) : alGet (alSet l k v) k' = alGet l k' := by
  induction l with
  | nil => simp [alSet, alGet, Ne.symm h]
  | cons p rest ih =>
      obtain ⟨k0, v0⟩ := p
      by_cases h0 : k0 = k
      · subst h0
        simp [alSet, alGet, Ne.symm h]
      · by_cases h1 : k0 = k' <;> simp [alSet, alGet, h0, h1, h, ih]

theorem alGet_alPop_ne {α : Type} (l : List (String × α)) (k k' : String)
    (h : k' ≠ k) : alGet (alPop l k) k' = alGet l k' := by
  induction l with
  | nil => simp [alPop]
  | cons p rest ih =>
      obtain ⟨k0, v0⟩ := p
      by_cases h0 : k0 = k
      · subst h0
        simp [alPop, alGet, Ne.symm h]
      · by_cases h1 : k0 = k' <;> simp [alPop, alGet, h0, h1, h, ih]

theorem mem_alKeys_alSet {α : Type} (l : List (String × α)) (k k' : String) (v : α) :
    k' ∈ alKeys (alSet l k v) ↔ k' ∈ alKeys l ∨ k' = k := by
  induction l with
  | nil => simp [alSet, alKeys, eq_comm]
  | cons p rest ih =>
      obtain ⟨k0, v0⟩ := p
      by_cases h : k0 = k <;> simp [alSet, alKeys, h, eq_comm] at ih ⊢ <;> tauto

theorem mem_alKeys_alPop {α : Type} (l : List (String × α)) (k k' : String) :
    k' ∈ alKeys (alPop l k) → k' ∈ alKeys l := by
  induction l with
  | nil => simp [alPop]
  | cons p rest ih =>
      obtain ⟨k0, v0⟩ := p
      by_cases h : k0 = k <;> simp [alPop, alKeys, h] at ih ⊢ <;> tauto

theorem alKeys_cons {α : Type} (k0 : String) (v0 : α) (rest : List (String × α)) :
    alKeys ((k0, v0) :: rest) = k0 :: alKeys rest := rfl

theorem nodup_alKeys_alSet {α : Type} (l : List (String × α)) (k : String) (v : α)
    (h : (alKeys l).Nodup) : (alKeys (alSet l k v)).Nodup := by
  induction l with
  | nil => simp [alSet, alKeys]
  | cons p rest ih =>
      obtain ⟨k0, v0⟩ := p
      rw [alKeys_cons, List.nodup_cons] at h
      by_cases h0 : k0 = k
      · subst h0
        simpa [alSet, alKeys_cons, List.nodup_cons] using h
      · simp only [alSet, if_neg h0, alKeys_cons, List.nodup_cons]
        exact ⟨fun hm => h.1 (((mem_alKeys_alSet rest k k0 v).mp hm).resolve_right h0),
          ih h.2⟩

theorem nodup_alKeys_alPop {α : Type} (l : List (String × α)) (k : String)
    (h : (alKeys l).Nodup) : (alKeys (alPop l k)).Nodup := by
  induction l with
  | nil => simp [alPop, alKeys]
  | cons p rest ih =>
      obtain ⟨k0, v0⟩ := p
      rw [alKeys_cons, List.nodup_cons] at h
      by_cases h0 : k0 = k
      · simpa [alPop, h0] using h.2
      · simp only [alPop, if_neg h0, alKeys_cons, List.nodup_cons]
        exact ⟨fun hm => h.1 (mem_alKeys_alPop rest k k0 hm), ih h.2⟩

theorem not_mem_alKeys_alPop_self {α : Type} (l : List (String × α)) (k : String)
    (h : (alKeys l).Nodup) : k ∉ alKeys (alPop l k) := by
  induction l with
  | nil => simp [alPop, alKeys]
  | cons p rest ih =>
      obtain ⟨k0, v0⟩ := p
      rw [alKeys_cons, List.nodup_cons] at h
      by_cases h0 : k0 = k
      · subst h0
        simpa [alPop] using h.1
      · simp only [alPop, if_neg h0, alKeys_cons, List.mem_cons, not_or]
        exact ⟨fun hh => h0 hh.symm, ih h.2⟩

theorem alGet_eq_none_of_not_mem {α : Type} (l : List (String × α)) (k : String)
    (h : k ∉ alKeys l) : alGet l k = Option.none := by
  induction l with
  | nil => simp [alGet]
  | cons p rest ih =>
      obtain ⟨k0, v0⟩ := p
      rw [alKeys_cons, List.mem_cons, not_or] at h
      simp [alGet, Ne.symm h.1, ih h.2]

theorem alGet_alPop_self {α : Type} (l : List (String × α)) (k : String)
    (h : (alKeys l).Nodup) : alGet (alPop l k) k = Option.none :=
  alGet_eq_none_of_not_mem _ _ (not_mem_alKeys_alPop_self l k h)

/-! ### Loop lemmas for the injected-context claims -/

theorem mem_alKeys_popSymbols (ks : List String) : ∀ (l : List (String × Nat)) (k : String),
    k ∈ alKeys (popSymbols ks l) → k ∈ alKeys l := by
  induction ks with
  | nil => intro l k h; simpa [popSymbols] using h
  | cons k0 rest ih =>
      intro l k h
      simp only [popSymbols] at h
      exact mem_alKeys_alPop l k0 k (ih (alPop l k0) k h)

theorem not_mem_popSymbols (ks : List String) : ∀ (l : List (String × Nat)) (k : String),
    (alKeys l).Nodup → k ∈ ks → k ∉ alKeys (popSymbols ks l) := by
  induction ks with
  | nil => intro l k _ hk; cases hk
  | cons k0 rest ih =>
      intro l k hnd hk
      simp only [popSymbols]
      rcases List.mem_cons.mp hk with h | h
      · subst h
        intro hmem
        exact not_mem_alKeys_alPop_self l k hnd (mem_alKeys_popSymbols rest (alPop l k) k hmem)
      · exact ih (alPop l k0) k (nodup_alKeys_alPop l k0 hnd) h


theorem injectModules_backup_notmem : ∀ (ts : List (String × Nat)), ∀ (sm bk : List (String × Nat)),
    ∀ (k : String), k ∉ ts.map Prod.fst → alGet (injectModules ts sm bk).2 k = alGet bk k := by
  intro ts
  induction ts with
  | nil => intro sm bk k _; simp [injectModules]
  | cons p rest ih =>
      intro sm bk k hk
      rw [List.map_cons, List.mem_cons, not_or] at hk
      simp only [injectModules]
      rw [ih _ _ k hk.2]
      cases hget : alGet sm p.1 <;> simp [hget, alGet_alSet_ne _ _ _ _ hk.1]

theorem injectModules_backup_get : ∀ (ts : List (String × Nat)), ∀ (sm bk : List (String × Nat)),
    ∀ (k : String), (ts.map Prod.fst).Nodup → k ∈ ts.map Prod.fst →
    alGet bk k = Option.none → alGet (injectModules ts sm bk).2 k = alGet sm k := by
  intro ts
  induction ts with
  | nil => intro sm bk k _ hk; cases hk
  | cons p rest ih =>
      intro sm bk k hnd hk hbk
      rw [List.map_cons, List.nodup_cons] at hnd
      simp only [injectModules]
      rcases List.mem_cons.mp hk with h | h
      · subst h
        rw [injectModules_backup_notmem rest _ _ _ hnd.1]
        cases hget : alGet sm p.1 <;> simp [hget, hbk, alGet_alSet_self]
      · have hne : k ≠ p.1 := fun hh => hnd.1 (hh ▸ h)
        have hbk2 : alGet (match alGet sm p.1 with
            | some m => alSet bk p.1 m
            | Option.none => bk) k = Option.none := by
          cases hget : alGet sm p.1 <;> simp [hget, hbk, alGet_alSet_ne _ _ _ _ hne]
        rw [ih _ _ k hnd.2 h hbk2, alGet_alSet_ne _ _ _ _ hne]

theorem restoreModules_notmem : ∀ (ts : List (String × Nat)), ∀ (bk sm : List (String × Nat)),
    ∀ (k : String), k ∉ ts.map Prod.fst →
    alGet (restoreModules bk ts sm) k = alGet sm k := by
  intro ts
  induction ts with
  | nil => intro bk sm k _; simp [restoreModules]
  | cons p rest ih =>
      intro bk sm k hk
      rw [List.map_cons, List.mem_cons, not_or] at hk
      simp only [restoreModules]
      rw [ih _ _ k hk.2]
      cases hget : alGet bk p.1 <;>
        simp [hget, alGet_alSet_ne _ _ _ _ hk.1, alGet_alPop_ne _ _ _ hk.1]

theorem nodup_restore_step (bk sm : List (String × Nat)) (k0 : String)
    (h : (alKeys sm).Nodup) :
    (alKeys (match alGet bk k0 with
      | some m => alSet sm k0 m
      | Option.none => alPop sm k0)).Nodup := by
  cases hget : alGet bk k0 <;>
    simp [hget, nodup_alKeys_alSet _ _ _ h, nodup_alKeys_alPop _ _ h]

theorem restoreModules_get : ∀ (ts : List (String × Nat)), ∀ (bk sm : List (String × Nat)),
    ∀ (k : String), (ts.map Prod.fst).Nodup → k ∈ ts.map Prod.fst →
    (alKeys sm).Nodup → alGet (restoreModules bk ts sm) k = alGet bk k := by
  intro ts
  induction ts with
  | nil => intro bk sm k _ hk; cases hk
  | cons p rest ih =>
      intro bk sm k hnd hk hsm
      rw [List.map_cons, List.nodup_cons] at hnd
      simp only [restoreModules]
      rcases List.mem_cons.mp hk with h | h
      · subst h
        rw [restoreModules_notmem rest _ _ _ hnd.1]
        cases hget : alGet bk p.1 <;>
          simp [hget, alGet_alSet_self, alGet_alPop_self _ _ hsm]
      · exact ih _ _ k hnd.2 h (nodup_restore_step bk sm p.1 hsm)


/-! ### Component lemmas about enter and exit -/

theorem enter_backup_eq (a : ActorDefinition) (toAdd nsAdds : List (String × Nat))
    (s : ProcState) :
    (ActorDefinition.injected_context_enter a toAdd nsAdds s).2 =
      ⟨(alGet s.environ "PATH").getD "",
       alGet s.environ "LEAPP_FILES",
       alGet s.environ "LEAPP_TOOLS",
       alKeys s.actorNs,
       (injectModules toAdd s.sysModules []).2,
       s.cwd⟩ := by
  unfold ActorDefinition.injected_context_enter
  cases hf : a.files <;> cases ht : a.tools <;>
    simp [alGet_alSet_ne, alGet_alSet_self]

theorem exit_cwd (bk : InjBackup) (toAdd : List (String × Nat)) (s2 : ProcState) :
    (ActorDefinition.injected_context_exit bk toAdd s2).cwd = bk.previous_path := rfl

theorem exit_PATH (bk : InjBackup) (toAdd : List (String × Nat)) (s2 : ProcState) :
    alGet (ActorDefinition.injected_context_exit bk toAdd s2).environ "PATH" =
      some bk.path_backup := by
  unfold ActorDefinition.injected_context_exit
  cases bk.files_backup <;> cases bk.tools_backup <;>
    simp [alGet_alSet_ne, alGet_alSet_self, alGet_alPop_ne]

theorem exit_FILES (bk : InjBackup) (toAdd : List (String × Nat)) (s2 : ProcState)
    (h : (alKeys s2.environ).Nodup) :
    alGet (ActorDefinition.injected_context_exit bk toAdd s2).environ "LEAPP_FILES" =
      bk.files_backup := by
  unfold ActorDefinition.injected_context_exit
  have h1 : (alKeys (alSet s2.environ "PATH" bk.path_backup)).Nodup :=
    nodup_alKeys_alSet _ _ _ h
  cases bk.files_backup <;> cases bk.tools_backup <;>
    simp [alGet_alSet_ne, alGet_alSet_self, alGet_alPop_ne, alGet_alPop_self _ _ h1]

theorem exit_TOOLS (bk : InjBackup) (toAdd : List (String × Nat)) (s2 : ProcState)
    (h : (alKeys s2.environ).Nodup) :
    alGet (ActorDefinition.injected_context_exit bk toAdd s2).environ "LEAPP_TOOLS" =
      bk.tools_backup := by
  unfold ActorDefinition.injected_context_exit
  have h1 : (alKeys (alSet s2.environ "PATH" bk.path_backup)).Nodup :=
    nodup_alKeys_alSet _ _ _ h
  have h2 : ∀ e2 : List (String × String), (alKeys e2).Nodup →
      alGet (match bk.tools_backup with
        | some v => alSet e2 "LEAPP_TOOLS" v
        | Option.none => alPop e2 "LEAPP_TOOLS") "LEAPP_TOOLS" = bk.tools_backup := by
    intro e2 he2
    cases bk.tools_backup <;> simp [alGet_alSet_self, alGet_alPop_self _ _ he2]
  cases hfb : bk.files_backup
  · exact h2 _ (nodup_alKeys_alPop _ _ h1)
  · exact h2 _ (nodup_alKeys_alSet _ _ _ h1)

theorem exit_namespace (bk : InjBackup) (toAdd : List (String × Nat)) (s2 : ProcState)
    (h : (alKeys s2.actorNs).Nodup) :
    ∀ k, k ∈ alKeys (ActorDefinition.injected_context_exit bk toAdd s2).actorNs →
      k ∈ bk.before := by
  intro k hk
  by_cases hb : k ∈ bk.before
  · exact hb
  · exfalso
    have hmem : k ∈ alKeys s2.actorNs := mem_alKeys_popSymbols _ _ _ hk
    have hadded : k ∈ ((alKeys s2.actorNs).filter (fun x => !bk.before.contains x)).dedup := by
      rw [List.mem_dedup, List.mem_filter]
      exact ⟨hmem, by simpa using hb⟩
    exact not_mem_popSymbols _ _ _ h hadded hk

theorem exit_modules (bk : InjBackup) (toAdd : List (String × Nat)) (s2 : ProcState)
    (hnd : (toAdd.map Prod.fst).Nodup) (h : (alKeys s2.sysModules).Nodup) :
    ∀ p ∈ toAdd, alGet (ActorDefinition.injected_context_exit bk toAdd s2).sysModules p.1 =
      alGet bk.backup p.1 := by
  intro p hp
  exact restoreModules_get toAdd bk.backup s2.sysModules p.1 hnd
    (List.mem_map.mpr ⟨p, hp, rfl⟩) h

/-- C5 (amended): after the body of an injected execution context raises,
all reversions still execute — the working directory is restored, the
`LEAPP_FILES`/`LEAPP_TOOLS` markers equal their pre-entry values (unset
if previously absent), no symbol added to the shared actor-library
namespace remains, and every injected module-registry entry is restored
or removed per its backup; `PATH`, however, is restored to its pre-entry
value only when it previously existed — a previously absent `PATH` is
set to the empty string, not unset.  The module names produced by the
loader are assumed distinct, the state the body leaves is assumed
dict-shaped (`ProcState.wf`), and the body is assumed to leave the
injected module entries registered — Python's `sys.modules.pop(name)` in
the cleanup would raise `KeyError` otherwise. -/
theorem C5_injected_context_reverts
    (a : ActorDefinition) (toAdd nsAdds : List (String × Nat))
    (body : ProcState → ProcState × Bool) (s : ProcState)
    (hnd : (toAdd.map Prod.fst).Nodup)
    (hwf : ((body (ActorDefinition.injected_context_enter a toAdd nsAdds s).1).1).wf)
    (_hpres : ∀ p ∈ toAdd,
      (alGet ((body (ActorDefinition.injected_context_enter a toAdd nsAdds s).1).1).sysModules
        p.1).isSome) :
    ((ActorDefinition.injected_context_run a toAdd nsAdds body s).1.cwd = s.cwd) ∧
    (alGet (ActorDefinition.injected_context_run a toAdd nsAdds body s).1.environ "PATH" =
      some ((alGet s.environ "PATH").getD "")) ∧
    (alGet (ActorDefinition.injected_context_run a toAdd nsAdds body s).1.environ "LEAPP_FILES" =
      alGet s.environ "LEAPP_FILES") ∧
    (alGet (ActorDefinition.injected_context_run a toAdd nsAdds body s).1.environ "LEAPP_TOOLS" =
      alGet s.environ "LEAPP_TOOLS") ∧
    (∀ k, k ∈ alKeys (ActorDefinition.injected_context_run a toAdd nsAdds body s).1.actorNs →
      k ∈ alKeys s.actorNs) ∧
    (∀ p ∈ toAdd,
      alGet (ActorDefinition.injected_context_run a toAdd nsAdds body s).1.sysModules p.1 =
        alGet s.sysModules p.1) := by
  obtain ⟨hev, hns, hsm⟩ := hwf
  have hbk := enter_backup_eq a toAdd nsAdds s
  simp only [ActorDefinition.injected_context_run]
  rw [hbk]
  refine ⟨exit_cwd _ _ _, exit_PATH _ _ _, exit_FILES _ _ _ hev, exit_TOOLS _ _ _ hev,
    exit_namespace _ _ _ hns, ?_⟩
  intro p hp
  rw [exit_modules _ _ _ hnd hsm p hp]
  exact injectModules_backup_get toAdd s.sysModules [] p.1 hnd
    (List.mem_map.mpr ⟨p, hp, rfl⟩) rfl


/-- Counterexample to C5 as stated: when `PATH` is absent before entry,
the exit restoration sets it to the empty string
(`os.environ['PATH'] = os.environ.get('PATH', '')`-backup semantics)
instead of leaving it unset. -/
theorem C5_counterexample :
    alGet ((ActorDefinition.injected_context_run ⟨"/r", "d", [], [], []⟩ [] []
        (fun st => (st, true)) ⟨[], "/", [], []⟩).1).environ "PATH" = some "" ∧
    alGet (⟨[], "/", [], []⟩ : ProcState).environ "PATH" = Option.none ∧
    (some "" : Option String) ≠ Option.none := by
  refine ⟨?_, rfl, by decide⟩
  rfl

/-- Witness for C5 on a concrete actor, loader output and raising body. -/
theorem C5_injected_context_reverts_witness :
    alGet ((ActorDefinition.injected_context_run ⟨"/repo", "actors/x", ["tools"], ["files"], ["libs"]⟩
        [("leapp.libraries.actor.m", 5)] [("m", 5)] (fun st => (st, true))
        ⟨[("PATH", "/bin"), ("HOME", "/root")], "/wd", [("existing", 1)], [("os", 2)]⟩).1).environ
      "PATH" = some "/bin" := by
  have h := (C5_injected_context_reverts ⟨"/repo", "actors/x", ["tools"], ["files"], ["libs"]⟩
      [("leapp.libraries.actor.m", 5)] [("m", 5)] (fun st => (st, true))
      ⟨[("PATH", "/bin"), ("HOME", "/root")], "/wd", [("existing", 1)], [("os", 2)]⟩
      (by decide) (by decide) (by decide)).2.1
  exact h.trans (by decide)


/-! ### Digit-character lemmas -/

theorem digitChar_isDigit (a : Nat) (h : a < 10) : (Nat.digitChar a).isDigit = true := by
  interval_cases a <;> decide

theorem dv_digitChar (a : Nat) (h : a < 10) : dv (Nat.digitChar a) = a := by
  interval_cases a <;> decide

/-- None of the characters `Nat.digitChar` can produce (hex digits and
the `'*'` fallback) can start a `UTC`/`GMT` timezone name or equal a
format literal. -/
theorem digitChar_safe (a : Nat) :
    (Nat.digitChar a).toLower ≠ 'u' ∧ (Nat.digitChar a).toLower ≠ 'g' ∧
    Nat.digitChar a ≠ '.' ∧ Nat.digitChar a ≠ 'Z' := by
  by_cases hlt : a < 16
  · interval_cases a <;> decide
  · obtain ⟨n, rfl⟩ : ∃ n, a = n + 16 := ⟨a - 16, by omega⟩
    have hstar : Nat.digitChar (n + 16) = '*' := by simp [Nat.digitChar]
    rw [hstar]
    decide

/-! ### Canonical-input success lemmas for the format parser -/

theorem parseLit_cons {β : Type} (ch : Char) (rest : List Char) (k : List Char → Option β) :
    parseLit ch (ch :: rest) k = k rest := by
  simp [parseLit]

theorem parseYear_canonical {β : Type} (a b c e : Nat) (rest : List Char)
    (k : Nat → List Char → Option β)
    (ha : a < 10) (hb : b < 10) (hc : c < 10) (he : e < 10) :
    parseYear (Nat.digitChar a :: Nat.digitChar b :: Nat.digitChar c :: Nat.digitChar e :: rest) k
      = k (1000 * a + 100 * b + 10 * c + e) rest := by
  simp [parseYear, digitChar_isDigit _ ha, digitChar_isDigit _ hb, digitChar_isDigit _ hc,
    digitChar_isDigit _ he, dv_digitChar _ ha, dv_digitChar _ hb, dv_digitChar _ hc,
    dv_digitChar _ he]

theorem parseNum2_canonical {β : Type} (ok2 ok1 : Nat → Bool) (a b : Nat) (rest : List Char)
    (k : Nat → List Char → Option β) (r : β)
    (ha : a < 10) (hb : b < 10) (h2 : ok2 (10 * a + b) = true)
    (hk : k (10 * a + b) rest = some r) :
    parseNum2 ok2 ok1 (Nat.digitChar a :: Nat.digitChar b :: rest) k = some r := by
  simp [parseNum2, digitChar_isDigit _ ha, digitChar_isDigit _ hb, dv_digitChar _ ha,
    dv_digitChar _ hb, h2, hk]

theorem matchTail_noTZ (p : DTParts) (cs : List Char) :
    matchTail false p cs = some (p, cs) := by
  simp [matchTail]


/-! ### Failure of the `%Z` format attempt on offset-free renderings

Whatever backtracking path the regex explores, `%Z` is eventually asked
to match some suffix of the input; if no character of the input can start
one of the recognized timezone names, every path fails. -/

/-- The character cannot start a (case-insensitive) `UTC`/`GMT` match. -/
def tzSafe (c : Char) : Prop := c.toLower ≠ 'u' ∧ c.toLower ≠ 'g'

theorem parseTZ_none {β : Type} (cs : List Char) (k : List Char → Option β)
    (h : ∀ c ∈ cs, tzSafe c) : parseTZ cs k = Option.none := by
  match cs with
  | [] => rfl
  | [a] => rfl
  | [a, b] => rfl
  | a :: b :: c :: rest =>
      have ha := h a (by simp)
      have h1 : String.mk [a.toLower, b.toLower, c.toLower] ≠ "utc" := by
        intro he
        have hd := congrArg String.data he
        simp at hd
        exact ha.1 hd.1
      have h2 : String.mk [a.toLower, b.toLower, c.toLower] ≠ "gmt" := by
        intro he
        have hd := congrArg String.data he
        simp at hd
        exact ha.2 hd.1
      simp [parseTZ, h1, h2]

theorem matchTail_tz_none (p : DTParts) (cs : List Char)
    (h : ∀ c ∈ cs, tzSafe c) : matchTail true p cs = Option.none := by
  simp only [matchTail, if_pos rfl]
  exact parseTZ_none cs _ h

theorem parseFrac_none {β : Type} (cs : List Char) (k : Nat → List Char → Option β)
    (h : ∀ v r, r <:+ cs → k v r = Option.none) : ∀ i, parseFrac cs k i = Option.none := by
  intro i
  induction i with
  | zero => rfl
  | succ j ih =>
      rw [parseFrac]
      have hd : k (fracVal (cs.take (j + 1))) (cs.drop (j + 1)) = Option.none :=
        h _ _ ⟨cs.take (j + 1), List.take_append_drop _ _⟩
      split
      · rw [hd]
        exact ih
      · exact ih

theorem parseLit_none {β : Type} (ch : Char) (cs : List Char) (k : List Char → Option β)
    (h : ∀ r, r <:+ cs → k r = Option.none) : parseLit ch cs k = Option.none := by
  match cs with
  | [] => rfl
  | c :: rest =>
      simp only [parseLit]
      split
      · exact h rest ⟨[c], rfl⟩
      · rfl

theorem parseYear_none {β : Type} (cs : List Char) (k : Nat → List Char → Option β)
    (h : ∀ y r, r <:+ cs → k y r = Option.none) : parseYear cs k = Option.none := by
  match cs with
  | [] => rfl
  | [a] => rfl
  | [a, b] => rfl
  | [a, b, c] => rfl
  | a :: b :: c :: e :: rest =>
      simp only [parseYear]
      split
      · exact h _ rest ⟨[a, b, c, e], rfl⟩
      · rfl

theorem parseNum2_none {β : Type} (ok2 ok1 : Nat → Bool) (cs : List Char)
    (k : Nat → List Char → Option β)
    (h : ∀ v r, r <:+ cs → k v r = Option.none) : parseNum2 ok2 ok1 cs k = Option.none := by
  match cs with
  | [] => rfl
  | [c1] =>
      simp only [parseNum2]
      split
      · exact h _ [] ⟨[c1], rfl⟩
      · rfl
  | c1 :: c2 :: rest =>
      have h2 : k (10 * dv c1 + dv c2) rest = Option.none := h _ _ ⟨[c1, c2], rfl⟩
      have h1 : k (dv c1) (c2 :: rest) = Option.none := h _ _ ⟨[c1], rfl⟩
      simp only [parseNum2]
      split
      · split
        · simp only [h2]
          split
          · exact h1
          · rfl
        · split
          · exact h1
          · rfl
      · rfl

theorem matchFracTail_tz_none (wfr : Bool) (y mo d hh mi s : Nat) (cs : List Char)
    (h : ∀ c ∈ cs, tzSafe c) : matchFracTail wfr true y mo d hh mi s cs = Option.none := by
  unfold matchFracTail
  cases wfr with
  | false =>
      show matchTail true ⟨y, mo, d, hh, mi, s, 0⟩ cs = Option.none
      exact matchTail_tz_none _ cs h
  | true =>
      show parseLit '.' cs
        (fun r1 => parseFrac r1 (fun f r2 => matchTail true ⟨y, mo, d, hh, mi, s, f⟩ r2) 6) =
        Option.none
      apply parseLit_none
      intro r hr
      apply parseFrac_none
      intro v r2 hr2
      apply matchTail_tz_none
      intro ch hch
      exact h ch ((hr2.trans hr).subset hch)




theorem matchFormat_tz_none (wfr : Bool) (cs : List Char)
    (h : ∀ c ∈ cs, tzSafe c) : matchFormat wfr true cs = Option.none := by
  have hsub : ∀ r : List Char, r <:+ cs → ∀ c ∈ r, tzSafe c :=
    fun r hr c hc => h c (hr.subset hc)
  unfold matchFormat
  apply parseYear_none; intro y r1 hr1
  apply parseLit_none; intro r2 hr2
  apply parseNum2_none; intro mo r3 hr3
  apply parseLit_none; intro r4 hr4
  apply parseNum2_none; intro d r5 hr5
  apply parseLit_none; intro r6 hr6
  apply parseNum2_none; intro hh r7 hr7
  apply parseLit_none; intro r8 hr8
  apply parseNum2_none; intro mi r9 hr9
  apply parseLit_none; intro r10 hr10
  apply parseNum2_none; intro s r11 hr11
  exact matchFracTail_tz_none wfr y mo d hh mi s r11
    (hsub r11 (((((((((hr11.trans hr10).trans hr9).trans hr8).trans hr7).trans hr6).trans
      hr5).trans hr4).trans hr3).trans (hr2.trans hr1)))


/-! ### Character-level facts about `isoformat()` output -/

/-- Every character of a naive `isoformat()` rendering is a digit
character or one of the literals `-`, `:`, `T`, `.` (the dot only when
microseconds are non-zero). -/
theorem isoChars_forall (P : Char → Prop) (hdig : ∀ a, P (Nat.digitChar a))
    (hd : P '-') (hc : P ':') (ht : P 'T') (d : PyDateTime)
    (hna : d.tzoffset = Option.none) (hp : d.microsecond ≠ 0 → P '.') :
    ∀ c ∈ d.isoChars, P c := by
  have A : ∀ {l1 l2 : List Char}, (∀ c ∈ l1, P c) → (∀ c ∈ l2, P c) →
      ∀ c ∈ l1 ++ l2, P c := by
    intro l1 l2 ha hb c hcc
    rcases List.mem_append.mp hcc with hx | hx
    · exact ha _ hx
    · exact hb _ hx
  have B : ∀ {x : Char} {l : List Char}, P x → (∀ c ∈ l, P c) →
      ∀ c ∈ x :: l, P c := by
    intro x l hx hl c hcc
    rcases List.mem_cons.mp hcc with rfl | hm
    · exact hx
    · exact hl _ hm
  have h2 : ∀ x : Nat, ∀ c ∈ pad2c x, P c := by
    intro x
    exact B (hdig _) (B (hdig _) (by simp))
  have h4 : ∀ x : Nat, ∀ c ∈ pad4c x, P c := by
    intro x
    exact B (hdig _) (B (hdig _) (B (hdig _) (B (hdig _) (by simp))))
  have h6 : ∀ x : Nat, ∀ c ∈ pad6c x, P c := by
    intro x
    exact B (hdig _) (B (hdig _) (B (hdig _) (B (hdig _) (B (hdig _)
      (B (hdig _) (by simp))))))
  have hfrac : ∀ c ∈ (if d.microsecond != 0 then '.' :: pad6c d.microsecond else []), P c := by
    by_cases hm : d.microsecond = 0
    · simp [hm]
    · have hm2 : (d.microsecond != 0) = true := by simpa using hm
      rw [hm2, if_pos rfl]
      exact B (hp hm) (h6 _)
  unfold PyDateTime.isoChars
  rw [hna]
  exact A (A (A (A (A (A (A (h4 _) (B hd (h2 _))) (B hd (h2 _))) (B ht (h2 _)))
    (B hc (h2 _))) (B hc (h2 _))) hfrac) (by simp [offsetChars])

/-- `rstrip('Z')` is the identity on strings containing no `'Z'`. -/
theorem rstripZ_eq_self (l : List Char) (h : ∀ c ∈ l, c ≠ 'Z') : rstripZ l = l := by
  unfold rstripZ
  match hrev : l.reverse with
  | [] =>
      have : l = [] := by simpa using congrArg List.reverse hrev
      simp [this]
  | c :: t =>
      have hcz : c ≠ 'Z' := h c (by rw [← List.mem_reverse, hrev]; simp)
      rw [List.dropWhile_cons, if_neg (by simpa using hcz), ← hrev, List.reverse_reverse]

theorem rstripZ_isoChars (d : PyDateTime) (hna : d.tzoffset = Option.none) :
    rstripZ (d.isoChars ++ ['Z']) = d.isoChars := by
  rw [rstripZ_append_Z]
  exact rstripZ_eq_self _ (isoChars_forall (fun c => c ≠ 'Z')
    (fun a => (digitChar_safe a).2.2.2) (by decide) (by decide) (by decide) d hna
    (fun _ => by decide))

theorem isoChars_tzSafe (d : PyDateTime) (hna : d.tzoffset = Option.none) :
    ∀ c ∈ d.isoChars, tzSafe c :=
  isoChars_forall tzSafe
    (fun a => ⟨(digitChar_safe a).1, (digitChar_safe a).2.1⟩)
    (by constructor <;> decide) (by constructor <;> decide) (by constructor <;> decide)
    d hna (fun _ => by constructor <;> decide)

theorem isoChars_contains_dot (d : PyDateTime) (hna : d.tzoffset = Option.none) :
    d.isoChars.contains '.' = (d.microsecond != 0) := by
  by_cases hm : d.microsecond = 0
  · have hnd : '.' ∉ d.isoChars := by
      intro hmem
      exact (isoChars_forall (fun c => c ≠ '.') (fun a => (digitChar_safe a).2.2.1)
        (by decide) (by decide) (by decide) d hna (fun hz => absurd hm hz)) '.' hmem rfl
    have hcf : d.isoChars.contains '.' = false := by simpa using hnd
    rw [hcf, hm]
    simp
  · have hm2 : (d.microsecond != 0) = true := by simpa using hm
    have hmem : '.' ∈ d.isoChars := by
      unfold PyDateTime.isoChars
      rw [hna]
      simp [hm2, offsetChars]
    have hct : d.isoChars.contains '.' = true := by simpa using hmem
    rw [hct, hm2]


/-! ### Successful parse of a canonical naive rendering -/

theorem parseYear_pad4 {β : Type} (y : Nat) (hy : y < 10000) (rest : List Char)
    (k : Nat → List Char → Option β) : parseYear (pad4c y ++ rest) k = k y rest := by
  have e : pad4c y ++ rest = Nat.digitChar (y / 1000) :: Nat.digitChar (y / 100 % 10) ::
      Nat.digitChar (y / 10 % 10) :: Nat.digitChar (y % 10) :: rest := rfl
  rw [e, parseYear_canonical _ _ _ _ rest k (by omega) (by omega) (by omega) (by omega)]
  have hv : 1000 * (y / 1000) + 100 * (y / 100 % 10) + 10 * (y / 10 % 10) + y % 10 = y := by
    omega
  rw [hv]

theorem parseNum2_pad2 {β : Type} (ok2 ok1 : Nat → Bool) (m : Nat) (hm : m < 100)
    (rest : List Char) (k : Nat → List Char → Option β) (r : β)
    (h2 : ok2 m = true) (hk : k m rest = some r) :
    parseNum2 ok2 ok1 (pad2c m ++ rest) k = some r := by
  have e : pad2c m ++ rest = Nat.digitChar (m / 10) :: Nat.digitChar (m % 10) :: rest := rfl
  rw [e]
  have hcan := parseNum2_canonical ok2 ok1 (m / 10) (m % 10) rest k r (by omega) (by omega)
  have hv : 10 * (m / 10) + m % 10 = m := by omega
  rw [hv] at hcan
  exact hcan h2 hk

theorem fracVal_pad6 (mic : Nat) (hm : mic < 1000000) : fracVal (pad6c mic) = mic := by
  have h1 : mic / 100000 < 10 := by omega
  simp only [fracVal, pad6c, List.foldl, List.length_cons, List.length_nil]
  rw [dv_digitChar _ h1, dv_digitChar _ (by omega), dv_digitChar _ (by omega),
    dv_digitChar _ (by omega), dv_digitChar _ (by omega), dv_digitChar _ (by omega)]
  simp
  omega

theorem parseFrac_pad6 {β : Type} (mic : Nat) (hm : mic < 1000000)
    (k : Nat → List Char → Option β) (r : β) (hk : k mic [] = some r) :
    parseFrac (pad6c mic) k 6 = some r := by
  rw [parseFrac]
  have htake : (pad6c mic).take 6 = pad6c mic := rfl
  have hdrop : (pad6c mic).drop 6 = [] := rfl
  rw [htake, hdrop]
  have hdig : ((pad6c mic).all Char.isDigit) = true := by
    simp only [pad6c, List.all_cons, List.all_nil, Bool.and_true]
    rw [digitChar_isDigit _ (by omega), digitChar_isDigit _ (by omega),
      digitChar_isDigit _ (by omega), digitChar_isDigit _ (by omega),
      digitChar_isDigit _ (by omega), digitChar_isDigit _ (by omega)]
    rfl
  have hlen : ((pad6c mic).length == 6) = true := rfl
  rw [hlen, hdig, fracVal_pad6 mic hm]
  simp [hk]

theorem matchFracTail_canonical (mic y mo dd hh mi ss : Nat) (hm : mic ≤ 999999) :
    matchFracTail (mic != 0) false y mo dd hh mi ss
        (if mic != 0 then '.' :: pad6c mic else []) =
      some (⟨y, mo, dd, hh, mi, ss, mic⟩, []) := by
  by_cases h0 : mic = 0
  · subst h0
    rfl
  · have h2 : (mic != 0) = true := by simpa using h0
    rw [h2]
    unfold matchFracTail
    rw [if_pos rfl, if_pos rfl, parseLit_cons]
    exact parseFrac_pad6 mic (by omega) _ _ (matchTail_noTZ _ _)

theorem matchFormat_canonical (d : PyDateTime) (hv : d.valid = true)
    (hna : d.tzoffset = Option.none) :
    matchFormat (d.microsecond != 0) false d.isoChars =
      some (⟨d.year, d.month, d.day, d.hour, d.minute, d.second, d.microsecond⟩, []) := by
  obtain ⟨y, mo, dd, hh, mi, ss, mic, tz⟩ := d
  simp only at hna
  subst hna
  simp only [PyDateTime.valid, Bool.and_eq_true, decide_eq_true_eq] at hv
  obtain ⟨⟨⟨⟨⟨⟨⟨⟨⟨hy1, hy2⟩, hmo1⟩, hmo2⟩, hd1⟩, hd2⟩, hh1⟩, hmi1⟩, hs1⟩, hmic⟩ := hv
  have hdim : daysInMonth y mo ≤ 31 := by
    unfold daysInMonth
    split <;> split <;> simp_all
  unfold matchFormat PyDateTime.isoChars
  simp only [offsetChars, List.append_nil, List.append_assoc, List.cons_append]
  rw [parseYear_pad4 y (by omega)]
  try dsimp only
  rw [parseLit_cons]
  apply parseNum2_pad2 _ _ mo (by omega) _ _ _
    (by simp only [Bool.and_eq_true, decide_eq_true_eq]; omega)
  try dsimp only
  rw [parseLit_cons]
  apply parseNum2_pad2 _ _ dd (by omega) _ _ _
    (by simp only [Bool.and_eq_true, decide_eq_true_eq]; omega)
  try dsimp only
  rw [parseLit_cons]
  apply parseNum2_pad2 _ _ hh (by omega) _ _ _ (by simp only [decide_eq_true_eq]; omega)
  try dsimp only
  rw [parseLit_cons]
  apply parseNum2_pad2 _ _ mi (by omega) _ _ _ (by simp only [decide_eq_true_eq]; omega)
  try dsimp only
  rw [parseLit_cons]
  apply parseNum2_pad2 _ _ ss (by omega) _ _ _ (by simp only [decide_eq_true_eq]; omega)
  try dsimp only
  exact matchFracTail_canonical mic y mo dd hh mi ss (by omega)

theorem strptimeDT_isoChars (d : PyDateTime) (hv : d.valid = true)
    (hna : d.tzoffset = Option.none) :
    strptimeDT (d.microsecond != 0) false d.isoChars = some d := by
  unfold strptimeDT
  rw [matchFormat_canonical d hv hna]
  simp only [PyDateTime.valid, Bool.and_eq_true, decide_eq_true_eq] at hv
  obtain ⟨⟨⟨⟨⟨⟨⟨⟨⟨hy1, hy2⟩, hmo1⟩, hmo2⟩, hd1⟩, hd2⟩, hh1⟩, hmi1⟩, hs1⟩, hmic⟩ := hv
  have hcond : (1 ≤ d.year && 1 ≤ d.month && d.month ≤ 12 && 1 ≤ d.day &&
      d.day ≤ daysInMonth d.year d.month && d.hour ≤ 23 && d.minute ≤ 59 &&
      d.second ≤ 59) = true := by
    simp only [Bool.and_eq_true, decide_eq_true_eq]
    omega
  simp only [List.isEmpty_nil, if_true, hcond]
  obtain ⟨y, mo, dd, hh, mi, ss, mic, tz⟩ := d
  simp only at hna
  subst hna
  rfl

/-- Parsing back a naive datetime's `isoformat() + "Z"` rendering
recovers the datetime: the `%Z` attempt fails (the rendering contains no
character that could start a timezone name), and the retry without `%Z`
consumes the whole string. -/
theorem parse_isoZ (d : PyDateTime) (hv : d.valid = true)
    (hna : d.tzoffset = Option.none) (n : String) :
    DateTime.parse_to_model (d.isoformat ++ "Z") n = .ok (.dtime d) := by
  unfold DateTime.parse_to_model
  have hdata : (d.isoformat ++ "Z").data = d.isoChars ++ ['Z'] := rfl
  rw [hdata]
  simp only [rstripZ_isoChars d hna]
  rw [isoChars_contains_dot d hna]
  have h1 : strptimeDT (d.microsecond != 0) true d.isoChars = Option.none := by
    unfold strptimeDT
    rw [matchFormat_tz_none _ _ (isoChars_tzSafe d hna)]
  simp only [h1, strptimeDT_isoChars d hv hna]


/-! ### Schema-conforming values and the round-trip theorem -/

mutual

/-- The value contains no timezone-aware datetime anywhere. -/
def PyVal.noAware : PyVal → Bool
  | .dtime dt => dt.tzoffset == Option.none
  | .list xs => PyVal.noAwares xs
  | .dict es => PyVal.noAwareKVs es
  | .obj _ attrs => PyVal.noAwareKVs attrs
  | _ => true

/-- `PyVal.noAware` on every element. -/
def PyVal.noAwares : List PyVal → Bool
  | [] => true
  | x :: xs => PyVal.noAware x && PyVal.noAwares xs

/-- `PyVal.noAware` on every entry value. -/
def PyVal.noAwareKVs : List (String × PyVal) → Bool
  | [] => true
  | (_, x) :: xs => PyVal.noAware x && PyVal.noAwareKVs xs

end

/-- The check raised nothing. -/
def passes (r : Except PyErr Unit) : Bool :=
  match r with
  | .ok _ => true
  | .error _ => false

theorem passes_iff (r : Except PyErr Unit) : passes r = true ↔ r = .ok () := by
  cases r with
  | ok u => cases u; simp [passes]
  | error e => simp [passes]

mutual

/-- Structural well-formedness of a model value for a field: the value is
not the `missing` sentinel (at any depth), a `List` field holds an actual
list (or null), every datetime object satisfies the invariant the Python
`datetime` constructor enforces, and a model-reference field holds an
instance of the referenced container (or null) whose attribute mapping
conforms, field by field, to the container's declaration
(`Field.wfFields`).  This is the reading of "a value satisfying the
field's schema": Python values produced by ordinary means always satisfy
it. -/
def Field.wf : Field → PyVal → Bool
  | _, .missing => false
  | .listF elem _ _ _, .list xs => Field.wfs elem xs
  | .listF _ _ _ _, .none => true
  | .listF _ _ _ _, _ => false
  | .modelF t fs _, .obj t' attrs => t' == t && Field.wfFields fs attrs
  | .modelF _ _ _, .none => true
  | .modelF _ _ _, _ => false
  | _, .dtime dt => dt.valid
  | _, _ => true

/-- `Field.wf` on every element. -/
def Field.wfs : Field → List PyVal → Bool
  | _, [] => true
  | f, x :: xs => Field.wf f x && Field.wfs f xs

/-- A container instance's attribute mapping conforms to the declared
fields: same names in declaration order, the declared names are distinct,
and each attribute value passes its field's model validation and is
itself well-formed. -/
def Field.wfFields : List (String × Field) → List (String × PyVal) → Bool
  | [], [] => true
  | (fn, g) :: rest, (an, av) :: arest =>
      fn == an && !(decide (fn ∈ rest.map Prod.fst)) &&
      passes (Field.validate_model_value g av fn) && Field.wf g av &&
      Field.wfFields rest arest
  | _, _ => false

end

theorem except_bind_ok {e a b : Type} {x : Except e a} {g : a → Except e b} {r : b}
    (h : (x >>= g) = .ok r) : ∃ y, x = .ok y ∧ g y = .ok r := by
  cases x with
  | ok y => exact ⟨y, rfl, h⟩
  | error err => simp at h

/-- The base builtin (null) check passes whenever the base model checks
passed. -/
theorem base_builtin_of_base_model (o : FieldOpts) (v : PyVal) (n : String)
    (h : Field.base_validate_model o v n = .ok ()) :
    Field.base_validate_builtin o v n = .ok () := by
  by_cases hc : (v == PyVal.none && !o.allow_null) = true <;>
    simp [Field.base_validate_model, Field.base_validate_builtin, hc] at h ⊢

/-- For the plain builtin kinds and the enum kinds, a model value that
passed the model-side checks also passes the builtin-side checks (the
two directions run the same type and choice checks). -/
theorem builtin_validate_of_model (o : FieldOpts) (isInst : PyVal → Bool) (names : String)
    (v : PyVal) (n : String)
    (h : (do
        Field.base_validate_model o v n
        BuiltinField.validate o.required isInst names v n) = .ok ()) :
    (do
        Field.base_validate_builtin o v n
        BuiltinField.validate o.required isInst names v n) = .ok () := by
  obtain ⟨y, h1, h2⟩ := except_bind_ok h
  rw [base_builtin_of_base_model _ _ _ h1]
  simpa using h2

/-- Enum variant of `Leapp.builtin_validate_of_model`. -/
theorem enum_validate_of_model (o : FieldOpts) (isInst : PyVal → Bool) (names : String)
    (cs : List PyVal) (v : PyVal) (n : String)
    (h : (do
        Field.base_validate_model o v n
        BuiltinField.validate o.required isInst names v n
        EnumMixin.validate_choices cs v n) = .ok ()) :
    (do
        Field.base_validate_builtin o v n
        BuiltinField.validate o.required isInst names v n
        EnumMixin.validate_choices cs v n) = .ok () := by
  obtain ⟨y, h1, h2⟩ := except_bind_ok h
  rw [base_builtin_of_base_model _ _ _ h1]
  simpa using h2

/-- Elementwise round-trip for `List` conversion loops, given the
element field's round-trip property. -/
theorem list_each_roundtrip (elem : Field)
    (ih : ∀ (v : PyVal) (n : String),
      Field.validate_model_value elem v n = .ok () → Field.wf elem v = true →
      PyVal.noAware v = true →
      ∃ w, Field.convert_from_model elem v n = .ok w ∧ w ≠ .missing ∧
        Field.validate_builtin_value elem w n = .ok () ∧
        Field.convert_to_model elem w n = .ok v) :
    ∀ (xs : List PyVal) (n : String) (i : Nat),
      eachValidate (fun x m => Field.validate_model_value elem x m) xs n i = .ok () →
      Field.wfs elem xs = true → PyVal.noAwares xs = true →
      ∃ ws, eachConvert (fun x m => Field.convert_from_model elem x m) xs n i = .ok ws ∧
        ws.length = xs.length ∧
        eachValidate (fun x m => Field.validate_builtin_value elem x m) ws n i = .ok () ∧
        eachConvert (fun x m => Field.convert_to_model elem x m) ws n i = .ok xs := by
  intro xs
  induction xs with
  | nil =>
      intro n i _ _ _
      exact ⟨[], rfl, rfl, rfl, rfl⟩
  | cons x xs ihx =>
      intro n i hv hwf hna
      simp only [eachValidate] at hv
      obtain ⟨y, hx, hxs⟩ := except_bind_ok hv
      simp only [Field.wfs, Bool.and_eq_true] at hwf
      simp only [PyVal.noAwares, Bool.and_eq_true] at hna
      obtain ⟨w, hw1, _, hw2, hw3⟩ := ih x (n ++ "[" ++ toString i ++ "]") hx hwf.1 hna.1
      obtain ⟨ws, hws1, hwslen, hws2, hws3⟩ := ihx n (i + 1) hxs hwf.2 hna.2
      refine ⟨w :: ws, ?_, ?_, ?_, ?_⟩
      · simp only [eachConvert, hw1, hws1, leappBindOk]
      · simp [hwslen]
      · simp only [eachValidate, hw2, hws2, leappBindOk]
      · simp only [eachConvert, hw3, hws3, leappBindOk]


theorem allow_null_of_model_none (f : Field) (n : String)
    (h : Field.validate_model_value f .none n = .ok ()) : f.opts.allow_null = true := by
  by_contra hc
  have hcf : f.opts.allow_null = false := by revert hc; cases f.opts.allow_null <;> simp
  rw [validate_model_eq_base_then_kind] at h
  simp [Field.base_validate_model, hcf] at h

theorem validate_builtin_none (f : Field) (n : String) (h : f.opts.allow_null = true) :
    Field.validate_builtin_value f .none n = .ok () := by
  rw [validate_builtin_eq_base_then_kind]
  have hk : Field.kindValidateBuiltin f PyVal.none n = .ok () := by
    cases f <;>
      simp [Field.kindValidateBuiltin, BuiltinField.validate, EnumMixin.validate_choices,
        PyVal.truthy, isDictV]
  have hb : Field.base_builtin_dispatch f PyVal.none n = .ok () := by
    cases f <;>
      simp_all [Field.base_builtin_dispatch, Field.base_validate_builtin,
        Field.base_validate_model, Field.opts]
  simp [hb, hk]

theorem validate_count_congr_length (mn : Int) (mx : Option Int) (ws xs : List PyVal)
    (n : String) (h : ws.length = xs.length) :
    ListField.validate_count mn mx ws n = ListField.validate_count mn mx xs n := by
  unfold ListField.validate_count
  rw [h]

theorem pySet_append (acc : List (String × PyVal)) (k : String) (v : PyVal)
    (h : k ∉ acc.map Prod.fst) : pySet acc k v = acc ++ [(k, v)] := by
  induction acc with
  | nil => rfl
  | cons p rest ih =>
      obtain ⟨k0, v0⟩ := p
      simp only [List.map_cons, List.mem_cons] at h
      push_neg at h
      simp only [pySet, if_neg (Ne.symm h.1), List.cons_append]
      rw [ih h.2]

theorem pyGet_of_mem_nodup (l : List (String × PyVal)) (k : String) (v : PyVal)
    (hnd : (l.map Prod.fst).Nodup) (hm : (k, v) ∈ l) : pyGet l k = some v := by
  induction l with
  | nil => simp at hm
  | cons p rest ih =>
      obtain ⟨k0, v0⟩ := p
      simp only [List.map_cons, List.nodup_cons] at hnd
      rcases List.mem_cons.mp hm with heq | hm'
      · cases heq
        simp [pyGet]
      · have hne : k0 ≠ k := by
          rintro rfl
          exact hnd.1 (List.mem_map_of_mem Prod.fst hm')
        simp [pyGet, hne, ih hnd.2 hm']

/-- Destructor for a `Field.wfFields` conjunction at a cons cell. -/
theorem wfFields_cons (fn : String) (g : Field) (rest : List (String × Field))
    (attrs : List (String × PyVal)) (h : Field.wfFields ((fn, g) :: rest) attrs = true) :
    ∃ av arest, attrs = (fn, av) :: arest ∧
      fn ∉ rest.map Prod.fst ∧
      Field.validate_model_value g av fn = .ok () ∧ Field.wf g av = true ∧
      Field.wfFields rest arest = true := by
  cases attrs with
  | nil => simp [Field.wfFields] at h
  | cons p arest =>
      obtain ⟨an, av⟩ := p
      simp only [Field.wfFields, Bool.and_eq_true, beq_iff_eq, Bool.not_eq_true',
        decide_eq_false_iff_not, passes_iff] at h
      obtain ⟨⟨⟨⟨hfn, hnd⟩, hpass⟩, hwf⟩, hrest⟩ := h
      subst hfn
      exact ⟨av, arest, rfl, hnd, hpass, hwf, hrest⟩

/-- The declared names of a conforming container are distinct. -/
theorem wfFields_nodup :
    ∀ (fs : List (String × Field)) (attrs : List (String × PyVal)),
      Field.wfFields fs attrs = true → (fs.map Prod.fst).Nodup
  | [], _, _ => by simp
  | (fn, g) :: rest, attrs, h => by
      obtain ⟨av, arest, rfl, hnd, _, _, hrest⟩ := wfFields_cons fn g rest attrs h
      simp only [List.map_cons, List.nodup_cons]
      exact ⟨hnd, wfFields_nodup rest arest hrest⟩

/-- Pointwise content of a dumped mapping: entry by entry, the dumped
value passes builtin validation and converts back to the original
attribute value. -/
def convertsBack :
    List (String × Field) → List (String × PyVal) → List (String × PyVal) → Prop
  | [], ws, attrs => ws = [] ∧ attrs = []
  | (fn, g) :: rest, ws, attrs =>
      ∃ w av ws' attrs', ws = (fn, w) :: ws' ∧ attrs = (fn, av) :: attrs' ∧
        w ≠ .missing ∧ Field.validate_builtin_value g w fn = .ok () ∧
        Field.convert_to_model g w fn = .ok av ∧ convertsBack rest ws' attrs'

theorem convertsBack_keys :
    ∀ (fs : List (String × Field)) (ws attrs : List (String × PyVal)),
      convertsBack fs ws attrs →
      ws.map Prod.fst = fs.map Prod.fst ∧ attrs.map Prod.fst = fs.map Prod.fst
  | [], ws, attrs, h => by
      obtain ⟨rfl, rfl⟩ := h
      simp
  | (fn, g) :: rest, ws, attrs, h => by
      obtain ⟨w, av, ws', attrs', rfl, rfl, _, _, _, hrec⟩ := h
      have hk := convertsBack_keys rest ws' attrs' hrec
      simp [hk.1, hk.2]

/-- The spec-modelled dump loop reads only the attributes of the declared
field names. -/
theorem dumpFields_congr :
    ∀ (fs : List (String × Field)) (a1 a2 acc : List (String × PyVal)),
      (∀ k ∈ fs.map Prod.fst, pyGet a1 k = pyGet a2 k) →
      Field.convert_from_model.dumpFields fs a1 acc =
        Field.convert_from_model.dumpFields fs a2 acc
  | [], _, _, _, _ => rfl
  | (fn, g) :: rest, a1, a2, acc, h => by
      have hh : pyGet a1 fn = pyGet a2 fn := h fn (by simp)
      simp only [Field.convert_from_model.dumpFields, hh]
      cases hc : Field.convert_from_model g ((pyGet a2 fn).getD PyVal.none) fn with
      | error e => simp [hc, leappBindErr]
      | ok tv =>
          simp only [hc, leappBindOk]
          cases htv : (tv != PyVal.missing) <;> simp only [htv, if_true, if_false,
              Bool.false_eq_true, ite_false, ite_true, leappBindOk] <;>
            exact dumpFields_congr rest a1 a2 _ (fun k hk => h k (by simp [hk]))

/-- Rebuilding the instance from its own dump: the spec-modelled
constructor loop, fed a source mapping that contains every dumped entry,
reproduces exactly the original attribute mapping. -/
theorem constructFromDump :
    ∀ (fs : List (String × Field)) (ws attrs : List (String × PyVal)),
      convertsBack fs ws attrs → (fs.map Prod.fst).Nodup →
      ∀ (src : List (String × PyVal)),
        (∀ fn w, (fn, w) ∈ ws → pyGet src fn = some w) →
      ∀ (acc : List (String × PyVal)), (∀ k ∈ fs.map Prod.fst, k ∉ acc.map Prod.fst) →
        Field.convert_to_model.toModelFields fs src acc = .ok (acc ++ attrs)
  | [], ws, attrs, h, _, src, _, acc, _ => by
      obtain ⟨rfl, rfl⟩ := h
      simp [Field.convert_to_model.toModelFields]
  | (fn, g) :: rest, ws, attrs, h, hnd, src, hsrc, acc, hdisj => by
      obtain ⟨w, av, ws', attrs', rfl, rfl, hwm, _, hconv, hrec⟩ := h
      simp only [List.map_cons, List.nodup_cons] at hnd
      have hget : pyGet src fn = some w := hsrc fn w (by simp)
      have hwmb : (w == PyVal.missing) = false := by
        simpa using hwm
      have hstep : Field.convert_to_model.toModelFields ((fn, g) :: rest) src acc =
          Field.convert_to_model.toModelFields rest src (pySet acc fn av) := by
        simp [Field.convert_to_model.toModelFields, hget, hwmb, hconv]
      rw [hstep, pySet_append acc fn av (hdisj fn (by simp))]
      have htail := constructFromDump rest ws' attrs' hrec hnd.2 src
        (fun fn' w' hm => hsrc fn' w' (by simp [hm]))
        (acc ++ [(fn, av)])
        (by
          intro k hk
          simp only [List.map_append, List.mem_append, List.map_cons, List.map_nil,
            List.mem_singleton, List.mem_cons, List.not_mem_nil, or_false]
          push_neg
          refine ⟨hdisj k (by simp [hk]), ?_⟩
          rintro rfl
          exact hnd.1 hk)
      rw [htail]
      simp

mutual

/-- The heart of the round-trip property: for every field kind and every
schema-conforming, aware-datetime-free model value, converting to the
builtin representation yields a non-`missing` value that passes builtin
validation and converts back to the original. -/
theorem roundtrip_master : ∀ (f : Field) (v : PyVal) (n : String),
    Field.validate_model_value f v n = .ok () → Field.wf f v = true →
    PyVal.noAware v = true →
    ∃ w, Field.convert_from_model f v n = .ok w ∧ w ≠ .missing ∧
      Field.validate_builtin_value f w n = .ok () ∧
      Field.convert_to_model f w n = .ok v
  | .boolean o => by
      intro v n h hwf hna
      have hb : Field.validate_builtin_value (.boolean o) v n = .ok () := by
        simp only [Field.validate_builtin_value]
        exact builtin_validate_of_model o isBoolV "bool" v n
          (by simpa [Field.validate_model_value] using h)
      exact ⟨v, by simp only [Field.convert_from_model, h, leappBindOk],
        by rintro rfl; simp [Field.wf] at hwf, hb,
        by simp only [Field.convert_to_model, hb, leappBindOk]⟩
  | .floatF o => by
      intro v n h hwf hna
      have hb : Field.validate_builtin_value (.floatF o) v n = .ok () := by
        simp only [Field.validate_builtin_value]
        exact builtin_validate_of_model o isFloatV "float" v n
          (by simpa [Field.validate_model_value] using h)
      exact ⟨v, by simp only [Field.convert_from_model, h, leappBindOk],
        by rintro rfl; simp [Field.wf] at hwf, hb,
        by simp only [Field.convert_to_model, hb, leappBindOk]⟩
  | .integer o => by
      intro v n h hwf hna
      have hb : Field.validate_builtin_value (.integer o) v n = .ok () := by
        simp only [Field.validate_builtin_value]
        exact builtin_validate_of_model o isIntV "int" v n
          (by simpa [Field.validate_model_value] using h)
      exact ⟨v, by simp only [Field.convert_from_model, h, leappBindOk],
        by rintro rfl; simp [Field.wf] at hwf, hb,
        by simp only [Field.convert_to_model, hb, leappBindOk]⟩
  | .number o => by
      intro v n h hwf hna
      have hb : Field.validate_builtin_value (.number o) v n = .ok () := by
        simp only [Field.validate_builtin_value]
        exact builtin_validate_of_model o isNumberV "int, float" v n
          (by simpa [Field.validate_model_value] using h)
      exact ⟨v, by simp only [Field.convert_from_model, h, leappBindOk],
        by rintro rfl; simp [Field.wf] at hwf, hb,
        by simp only [Field.convert_to_model, hb, leappBindOk]⟩
  | .stringF o => by
      intro v n h hwf hna
      have hb : Field.validate_builtin_value (.stringF o) v n = .ok () := by
        simp only [Field.validate_builtin_value]
        exact builtin_validate_of_model o isStrV "str, bytes" v n
          (by simpa [Field.validate_model_value] using h)
      exact ⟨v, by simp only [Field.convert_from_model, h, leappBindOk],
        by rintro rfl; simp [Field.wf] at hwf, hb,
        by simp only [Field.convert_to_model, hb, leappBindOk]⟩
  | .stringEnum cs o => by
      intro v n h hwf hna
      have hb : Field.validate_builtin_value (.stringEnum cs o) v n = .ok () := by
        simp only [Field.validate_builtin_value]
        exact enum_validate_of_model o isStrV "str, bytes" cs v n
          (by simpa [Field.validate_model_value] using h)
      exact ⟨v, by simp only [Field.convert_from_model, h, leappBindOk],
        by rintro rfl; simp [Field.wf] at hwf, hb,
        by simp only [Field.convert_to_model, hb, leappBindOk]⟩
  | .integerEnum cs o => by
      intro v n h hwf hna
      have hb : Field.validate_builtin_value (.integerEnum cs o) v n = .ok () := by
        simp only [Field.validate_builtin_value]
        exact enum_validate_of_model o isIntV "int" cs v n
          (by simpa [Field.validate_model_value] using h)
      exact ⟨v, by simp only [Field.convert_from_model, h, leappBindOk],
        by rintro rfl; simp [Field.wf] at hwf, hb,
        by simp only [Field.convert_to_model, hb, leappBindOk]⟩
  | .floatEnum cs o => by
      intro v n h hwf hna
      have hb : Field.validate_builtin_value (.floatEnum cs o) v n = .ok () := by
        simp only [Field.validate_builtin_value]
        exact enum_validate_of_model o isFloatV "float" cs v n
          (by simpa [Field.validate_model_value] using h)
      exact ⟨v, by simp only [Field.convert_from_model, h, leappBindOk],
        by rintro rfl; simp [Field.wf] at hwf, hb,
        by simp only [Field.convert_to_model, hb, leappBindOk]⟩
  | .numberEnum cs o => by
      intro v n h hwf hna
      have hb : Field.validate_builtin_value (.numberEnum cs o) v n = .ok () := by
        simp only [Field.validate_builtin_value]
        exact enum_validate_of_model o isNumberV "int, float" cs v n
          (by simpa [Field.validate_model_value] using h)
      exact ⟨v, by simp only [Field.convert_from_model, h, leappBindOk],
        by rintro rfl; simp [Field.wf] at hwf, hb,
        by simp only [Field.convert_to_model, hb, leappBindOk]⟩
  | .dateTime o => by
      intro v n h hwf hna
      cases v with
      | none =>
          have hall := allow_null_of_model_none _ _ h
          have hb := validate_builtin_none (.dateTime o) n hall
          refine ⟨.none, ?_, by simp, hb, ?_⟩
          · simp only [Field.convert_from_model, h, leappBindOk]
            simp
          · simp only [Field.convert_to_model, hb, leappBindOk]
      | missing => simp [Field.wf] at hwf
      | dtime dt =>
          have hvalid : dt.valid = true := by simpa [Field.wf] using hwf
          have htz : dt.tzoffset = Option.none := by simpa [PyVal.noAware] using hna
          have hb : Field.validate_builtin_value (.dateTime o)
              (.str (dt.isoformat ++ "Z")) n = .ok () := by
            simp [Field.validate_builtin_value, Field.base_validate_builtin,
              BuiltinField.validate, isStrV]
          refine ⟨.str (dt.isoformat ++ "Z"), ?_, by simp, hb, ?_⟩
          · simp only [Field.convert_from_model, h, leappBindOk]
            simp [PyDateTime.utcFalsy, htz]
          · simp only [Field.convert_to_model, hb, leappBindOk]
            exact parse_isoZ dt hvalid htz n
      | bool b =>
          simp [Field.validate_model_value, Field.base_validate_model,
            BuiltinField.validate, isDatetimeV] at h
      | int k =>
          simp [Field.validate_model_value, Field.base_validate_model,
            BuiltinField.validate, isDatetimeV] at h
      | float q =>
          simp [Field.validate_model_value, Field.base_validate_model,
            BuiltinField.validate, isDatetimeV] at h
      | str s =>
          simp [Field.validate_model_value, Field.base_validate_model,
            BuiltinField.validate, isDatetimeV] at h
      | list xs =>
          simp [Field.validate_model_value, Field.base_validate_model,
            BuiltinField.validate, isDatetimeV] at h
      | dict es =>
          simp [Field.validate_model_value, Field.base_validate_model,
            BuiltinField.validate, isDatetimeV] at h
      | obj t attrs =>
          simp [Field.validate_model_value, Field.base_validate_model,
            BuiltinField.validate, isDatetimeV] at h
  | .listF elem mn mx o => by
      intro v n h hwf hna
      cases v with
      | none =>
          have hall := allow_null_of_model_none _ _ h
          have hb := validate_builtin_none (.listF elem mn mx o) n hall
          refine ⟨.none, ?_, by simp, hb, ?_⟩
          · simp only [Field.convert_from_model, h, leappBindOk]
            simp
          · simp only [Field.convert_to_model, hb, leappBindOk]
      | missing => simp [Field.wf] at hwf
      | bool b => simp [Field.wf] at hwf
      | int k => simp [Field.wf] at hwf
      | float q => simp [Field.wf] at hwf
      | str s => simp [Field.wf] at hwf
      | dtime dt => simp [Field.wf] at hwf
      | dict es => simp [Field.wf] at hwf
      | obj t attrs => simp [Field.wf] at hwf
      | list xs =>
          have hmv := h
          simp only [Field.validate_model_value] at hmv
          obtain ⟨u1, hbase, hrest⟩ := except_bind_ok hmv
          obtain ⟨u2, hcount, heach⟩ := except_bind_ok hrest
          have hwfs : Field.wfs elem xs = true := by simpa [Field.wf] using hwf
          have hnas : PyVal.noAwares xs = true := by simpa [PyVal.noAware] using hna
          obtain ⟨ws, hws1, hlen, hws2, hws3⟩ :=
            list_each_roundtrip elem
              (fun v' n' hv' hw' hn' => roundtrip_master elem v' n' hv' hw' hn')
              xs n 0 heach hwfs hnas
          have hbb : Field.base_validate_builtin o (.list ws) n = .ok () := by
            simp [Field.base_validate_builtin]
          have hvb : Field.validate_builtin_value (.listF elem mn mx o) (.list ws) n
              = .ok () := by
            simp only [Field.validate_builtin_value, hbb, leappBindOk]
            rw [validate_count_congr_length mn mx ws xs n hlen, hcount]
            simpa using hws2
          refine ⟨.list ws, ?_, by simp, hvb, ?_⟩
          · simp only [Field.convert_from_model, h, leappBindOk]
            simp [hws1]
          · simp only [Field.convert_to_model, hvb, leappBindOk]
            simp [hws3]
  | .modelF t fs o => by
      intro v n h hwf hna
      cases v with
      | none =>
          have hall := allow_null_of_model_none _ _ h
          have hb := validate_builtin_none (.modelF t fs o) n hall
          refine ⟨.none, ?_, by simp, hb, ?_⟩
          · simp only [Field.convert_from_model, h, leappBindOk]
            simp
          · simp only [Field.convert_to_model, hb, leappBindOk]
      | missing => simp [Field.wf] at hwf
      | bool b => simp [Field.wf] at hwf
      | int k => simp [Field.wf] at hwf
      | float q => simp [Field.wf] at hwf
      | str s => simp [Field.wf] at hwf
      | dtime dt => simp [Field.wf] at hwf
      | list xs => simp [Field.wf] at hwf
      | dict es => simp [Field.wf] at hwf
      | obj t2 attrs =>
          obtain ⟨ht, hwfs⟩ : t2 = t ∧ Field.wfFields fs attrs = true := by
            simpa [Field.wf] using hwf
          have hnas : PyVal.noAwareKVs attrs = true := by
            simpa [PyVal.noAware] using hna
          have hnd := wfFields_nodup fs attrs hwfs
          obtain ⟨ws, hdump, hcb⟩ := roundtrip_dump fs attrs hwfs hnas [] (by simp)
          have hkeys := convertsBack_keys fs ws attrs hcb
          have hndw : (ws.map Prod.fst).Nodup := by rw [hkeys.1]; exact hnd
          have hvb : Field.validate_builtin_value (.modelF t fs o) (.dict ws) n
              = .ok () := by
            simp [Field.validate_builtin_value, Field.base_validate_model, isDictV]
          refine ⟨.dict ws, ?_, by simp, hvb, ?_⟩
          · simp only [Field.convert_from_model, h, leappBindOk]
            simp [hdump]
          · simp only [Field.convert_to_model, hvb, leappBindOk]
            rw [constructFromDump fs ws attrs hcb hnd ws
              (fun fn w hm => pyGet_of_mem_nodup ws fn w hndw hm) [] (by simp)]
            simp [ht]

/-- Mutual partner of `Leapp.roundtrip_master`: the spec-modelled dump
loop of a conforming container instance succeeds, appends one entry per
declared field, and each dumped entry converts back to the original
attribute value. -/
theorem roundtrip_dump :
    ∀ (fs : List (String × Field)) (attrs : List (String × PyVal)),
      Field.wfFields fs attrs = true → PyVal.noAwareKVs attrs = true →
      ∀ acc : List (String × PyVal), (∀ k ∈ fs.map Prod.fst, k ∉ acc.map Prod.fst) →
      ∃ ws, Field.convert_from_model.dumpFields fs attrs acc = .ok (acc ++ ws) ∧
        convertsBack fs ws attrs
  | [], attrs => by
      intro hwf hna acc hdisj
      cases attrs with
      | nil =>
          refine ⟨[], ?_, ?_⟩
          · simp [Field.convert_from_model.dumpFields]
          · simp [convertsBack]
      | cons p arest => simp [Field.wfFields] at hwf
  | (fn, g) :: rest, attrs => by
      intro hwf hna acc hdisj
      obtain ⟨av, arest, rfl, hndc, hval, hwfg, hrestwf⟩ := wfFields_cons fn g rest attrs hwf
      simp only [PyVal.noAwareKVs, Bool.and_eq_true] at hna
      obtain ⟨w, hw1, hwm, hw2, hw3⟩ := roundtrip_master g av fn hval hwfg hna.1
      have hstep : Field.convert_from_model.dumpFields ((fn, g) :: rest)
            ((fn, av) :: arest) acc =
          Field.convert_from_model.dumpFields rest ((fn, av) :: arest) (pySet acc fn w) := by
        have hg : pyGet ((fn, av) :: arest) fn = some av := by simp [pyGet]
        simp only [Field.convert_from_model.dumpFields, hg, Option.getD_some, hw1,
          leappBindOk]
        rw [if_pos (by simpa using hwm : (w != PyVal.missing) = true)]
      have hcongr : Field.convert_from_model.dumpFields rest ((fn, av) :: arest)
            (pySet acc fn w) =
          Field.convert_from_model.dumpFields rest arest (pySet acc fn w) := by
        apply dumpFields_congr
        intro k hk
        have hkfn : fn ≠ k := by rintro rfl; exact hndc hk
        simp [pyGet, hkfn]
      have hdisj' : ∀ k ∈ rest.map Prod.fst, k ∉ (pySet acc fn w).map Prod.fst := by
        intro k hk
        have h1 : k ∉ acc.map Prod.fst := hdisj k (by simp [hk])
        have h2 : k ≠ fn := by rintro rfl; exact hndc hk
        rw [pySet_append acc fn w (hdisj fn (by simp))]
        simp [h1, h2]
      obtain ⟨ws', hdump', hcb'⟩ :=
        roundtrip_dump rest arest hrestwf hna.2 (pySet acc fn w) hdisj'
      refine ⟨(fn, w) :: ws', ?_, ?_⟩
      · rw [hstep, hcongr, hdump', pySet_append acc fn w (hdisj fn (by simp))]
        simp
      · exact ⟨w, av, ws', arest, rfl, rfl, hwm, hw2, hw3, hcb'⟩

end


/-- C1 (amended): for every field kind, converting a schema-conforming
model value to the builtin representation and back yields the value
again — except timezone-aware `DateTime` values, which never round-trip:
a zero-offset aware value serializes to a string whose parse-back raises
a violation, and a non-zero-offset aware value serializes to `None`.
The hypotheses say the value passes the field's model validation, is
structurally schema-conforming (`Field.wf`: present, `missing`-free,
lists are lists, datetimes constructor-valid, model-reference values are
instances of the referenced container whose attributes conform field by
field), and contains no aware datetime. -/
theorem C1_roundtrip_except_aware (f : Field) (v : PyVal) (n : String)
    (hval : Field.validate_model_value f v n = .ok ())
    (hwf : Field.wf f v = true) (hna : PyVal.noAware v = true) :
    (Field.convert_from_model f v n).bind (fun w => Field.convert_to_model f w n) = .ok v := by
  obtain ⟨w, h1, _, h2, h3⟩ := roundtrip_master f v n hval hwf hna
  rw [h1]
  simpa [Except.bind] using h3

/-- Counterexample to C1 as stated: a timezone-aware datetime with a
zero UTC offset satisfies the `DateTime` field's schema, yet its
round-trip raises a violation instead of returning the value — the
serialization appends both the `+00:00` offset and `"Z"`, and the parse
of that string fails in both format attempts. -/
theorem C1_counterexample :
    Field.validate_model_value (.dateTime FieldOpts.dflt)
        (.dtime ⟨2020, 1, 1, 0, 0, 0, 0, some 0⟩) "n" = .ok () ∧
    Field.convert_from_model (.dateTime FieldOpts.dflt)
        (.dtime ⟨2020, 1, 1, 0, 0, 0, 0, some 0⟩) "n" =
      .ok (.str "2020-01-01T00:00:00+00:00Z") ∧
    (Field.convert_from_model (.dateTime FieldOpts.dflt)
          (.dtime ⟨2020, 1, 1, 0, 0, 0, 0, some 0⟩) "n").bind
        (fun w => Field.convert_to_model (.dateTime FieldOpts.dflt) w "n") =
      .error (.violation
        "The n field contains an invalid datetime value: '2020-01-01T00:00:00+00:00'") := by
  refine ⟨by decide, by decide, by decide⟩

/-- Witness for C1 on a model-reference field: an instance holding a
naive datetime attribute and a list-of-integers attribute. -/
theorem C1_roundtrip_except_aware_witness :
    (Field.convert_from_model
        (.modelF "Ev" [("when", .dateTime FieldOpts.dflt),
          ("ids", .listF (.integer FieldOpts.dflt) 0 Option.none FieldOpts.dflt)]
          FieldOpts.dflt)
        (.obj "Ev" [("when", .dtime ⟨2020, 6, 1, 10, 30, 0, 250000, Option.none⟩),
          ("ids", .list [.int 4, .int 7])]) "n").bind
      (fun w => Field.convert_to_model
        (.modelF "Ev" [("when", .dateTime FieldOpts.dflt),
          ("ids", .listF (.integer FieldOpts.dflt) 0 Option.none FieldOpts.dflt)]
          FieldOpts.dflt) w "n") =
      .ok (.obj "Ev" [("when", .dtime ⟨2020, 6, 1, 10, 30, 0, 250000, Option.none⟩),
        ("ids", .list [.int 4, .int 7])]) :=
  C1_roundtrip_except_aware
    (.modelF "Ev" [("when", .dateTime FieldOpts.dflt),
      ("ids", .listF (.integer FieldOpts.dflt) 0 Option.none FieldOpts.dflt)]
      FieldOpts.dflt)
    (.obj "Ev" [("when", .dtime ⟨2020, 6, 1, 10, 30, 0, 250000, Option.none⟩),
      ("ids", .list [.int 4, .int 7])]) "n"
    (by decide) (by decide) (by decide)

end Leapp
